import Mathlib

/-!
Verification of the flashcard response-acquisition and validation pipeline
(`AIService` in `src/services/aiService.ts`, three observed variants).

The embedding mirrors the JavaScript/TypeScript source:

* JSON runtime values are modeled by the inductive `Json` (numbers as `Int`:
  `JSON.parse` never yields `NaN`/`Infinity`, and the claims only involve
  integer-free data; object fields are a key/value list, first match wins).
* JavaScript truthiness, `||`-defaulting, `Array.isArray`, property access
  (returning `undefined` on non-objects, throwing on `null`), `trim`, `split`,
  `substring`, `Set` insertion-order semantics and the concrete regular
  expressions used by the source are modeled char-by-char.
* Effects are made explicit: `Date.now()` becomes a `now : Nat` argument,
  `Math.random()*500` a `jitter : Nat → Nat` argument, `JSON.parse` a
  `jp : String → Option Json` argument (`none` = parse exception), and each
  `fetch` of the retrying caller an oracle `resp : Nat → FetchOutcome`
  indexed by the global number of upstream calls made so far in the run.
  Thrown exceptions become `Except.error`.
* `AIServiceOpenAI` is the chunked-OpenAI variant (first document of
  `src/unnamed/part_007`), `AIServiceHF` the single-endpoint Hugging Face
  variant (`src/unnamed/part_008`), `AIServiceHFMulti` the multi-endpoint
  Hugging Face variant (`src/unnamed/part_006`).
-/

/-- A JavaScript runtime value as produced by `JSON.parse`. -/
inductive Json where
  | null : Json
  | bool (b : Bool) : Json
  | num (n : Int) : Json
  | str (s : String) : Json
  | arr (xs : List Json) : Json
  | obj (fields : List (String × Json)) : Json

mutual

def Json.beq : Json → Json → Bool
  | .null, .null => true
  | .bool a, .bool b => a == b
  | .num a, .num b => a == b
  | .str a, .str b => a == b
  | .arr xs, .arr ys => Json.beqList xs ys
  | .obj fs, .obj gs => Json.beqFields fs gs
  | _, _ => false

def Json.beqList : List Json → List Json → Bool
  | [], [] => true
  | x :: xs, y :: ys => Json.beq x y && Json.beqList xs ys
  | _, _ => false

def Json.beqFields : List (String × Json) → List (String × Json) → Bool
  | [], [] => true
  | (k, v) :: fs, (k2, v2) :: gs => k == k2 && Json.beq v v2 && Json.beqFields fs gs
  | _, _ => false

end

mutual

theorem Json.beq_iff : ∀ (a b : Json), (Json.beq a b = true) ↔ a = b
  | .null, .null => by simp [Json.beq]
  | .bool a, .bool b => by simp [Json.beq]
  | .num a, .num b => by simp [Json.beq]
  | .str a, .str b => by simp [Json.beq]
  | .arr xs, .arr ys => by
      simp only [Json.beq, Json.beqList_iff xs ys, Json.arr.injEq]
  | .obj fs, .obj gs => by
      simp only [Json.beq, Json.beqFields_iff fs gs, Json.obj.injEq]
  | .null, .bool _ | .null, .num _ | .null, .str _ | .null, .arr _ | .null, .obj _
  | .bool _, .null | .bool _, .num _ | .bool _, .str _ | .bool _, .arr _ | .bool _, .obj _
  | .num _, .null | .num _, .bool _ | .num _, .str _ | .num _, .arr _ | .num _, .obj _
  | .str _, .null | .str _, .bool _ | .str _, .num _ | .str _, .arr _ | .str _, .obj _
  | .arr _, .null | .arr _, .bool _ | .arr _, .num _ | .arr _, .str _ | .arr _, .obj _
  | .obj _, .null | .obj _, .bool _ | .obj _, .num _ | .obj _, .str _ | .obj _, .arr _ => by
      simp [Json.beq]

theorem Json.beqList_iff : ∀ (xs ys : List Json), (Json.beqList xs ys = true) ↔ xs = ys
  | [], [] => by simp [Json.beqList]
  | x :: xs, y :: ys => by
      simp only [Json.beqList, Bool.and_eq_true, Json.beq_iff x y, Json.beqList_iff xs ys,
        List.cons.injEq]
  | [], _ :: _ => by simp [Json.beqList]
  | _ :: _, [] => by simp [Json.beqList]

theorem Json.beqFields_iff :
    ∀ (fs gs : List (String × Json)), (Json.beqFields fs gs = true) ↔ fs = gs
  | [], [] => by simp [Json.beqFields]
  | (k, v) :: fs, (k2, v2) :: gs => by
      simp only [Json.beqFields, Bool.and_eq_true, Json.beq_iff v v2, Json.beqFields_iff fs gs,
        List.cons.injEq, beq_iff_eq, Prod.mk.injEq]
  | [], _ :: _ => by simp [Json.beqFields]
  | _ :: _, [] => by simp [Json.beqFields]

end

instance : DecidableEq Json := fun a b => decidable_of_iff _ (Json.beq_iff a b)

/-- JavaScript truthiness of a runtime value:
`null`, `false`, `0` and `""` are falsy, everything else (including empty
arrays and objects) is truthy. -/
def jsTruthy : Json → Bool
  | .null => false
  | .bool b => b
  | .num n => n != 0
  | .str s => s ≠ ""
  | .arr _ => true
  | .obj _ => true

/-- Property read `v.k`: `some` when `v` is an object carrying the key
(first binding wins, mirroring last-wins duplicate handling being irrelevant
for the distinct-key objects the claims use), `none` (= `undefined`) when the
key is absent or `v` is a non-object primitive. Reads on `null` throw in
JavaScript; callers model that case explicitly before using `getField`. -/
def getField : Json → String → Option Json
  | .obj fs, k => fs.lookup k
  | _, _ => none

/-- `x || dflt` applied to a possibly-absent property value. -/
def jsOr (v : Option Json) (dflt : Json) : Json :=
  match v with
  | some x => if jsTruthy x then x else dflt
  | none => dflt

/-- `Array.isArray(x) ? x : []` applied to a possibly-absent property value. -/
def asArr (v : Option Json) : List Json :=
  match v with
  | some (.arr xs) => xs
  | _ => []

/-- `(x || []).map ...` as used on the `cards` field: a falsy value is
replaced by `[]`; a truthy non-array value makes the subsequent `.map` throw
a `TypeError` (modeled as `Except.error`). -/
def jsOrEmptyList (v : Option Json) : Except Unit (List Json)  :=
  match v with
  | none => .ok []
  | some x =>
    if jsTruthy x then
      match x with
      | .arr xs => .ok xs
      | _ => .error ()
    else .ok []

/-- The whitespace class `\s` of JavaScript regular expressions and
`String.prototype.trim`, restricted to the characters that can occur in this
pipeline's data. -/
def jsIsSpace (c : Char) : Bool :=
  c = ' ' ∨ c = '\t' ∨ c = '\n' ∨ c = '\r' ∨ c = '\x0b' ∨ c = '\x0c' ∨ c = ' '

/-- `String.prototype.trim`. -/
def jsTrim (s : String) : String :=
  .mk (((s.data.dropWhile jsIsSpace).reverse.dropWhile jsIsSpace).reverse)

/-- `String.prototype.toLowerCase` on the Latin-1 range used by the source
(ASCII capitals and `À`–`Þ` except `×`; all other characters unchanged). -/
def jsToLowerChar (c : Char) : Char :=
  if ('A' ≤ c ∧ c ≤ 'Z') ∨ (('À' ≤ c ∧ c ≤ 'Þ') ∧ c ≠ '×') then
    Char.ofNat (c.toNat + 32)
  else c

def jsToLower (s : String) : String := .mk (s.data.map jsToLowerChar)

/-- Substring containment on character lists (`String.prototype.includes`). -/
def listContains (hay pat : List Char) : Bool :=
  match hay with
  | [] => pat = []
  | _ :: rest => pat.isPrefixOf hay || listContains rest pat

/-- `haystack.includes(pattern)`. -/
def jsIncludes (hay pat : String) : Bool := listContains hay.data pat.data

/-- Case-insensitive containment, as used by `/.../i.test(...)` on plain
alternation-of-literals patterns. -/
def ciIncludes (hay pat : String) : Bool :=
  listContains (jsToLower hay).data (jsToLower pat).data

/-- `s.substring(start, stop)` (with the clamping JavaScript performs when
the bounds exceed the length; the source never passes `start > stop`). -/
def jsSubstring (s : String) (start stop : Nat) : String :=
  .mk ((s.data.take stop).drop start)

/-- `s.split(sep)` for a single-character separator (as used with `'\n'` and
`' '`): empty pieces are kept. -/
def splitOnCharAux (sep : Char) : List Char → List Char → List String
  | [], acc => [String.mk acc.reverse]
  | c :: rest, acc =>
    if c = sep then String.mk acc.reverse :: splitOnCharAux sep rest []
    else splitOnCharAux sep rest (c :: acc)

def jsSplitOnChar (sep : Char) (s : String) : List String :=
  splitOnCharAux sep s.data []

/-- One step of accumulating a JavaScript `Set`: insertion order is kept,
duplicates are dropped. -/
def jsSetAdd {α : Type} [DecidableEq α] (l : List α) (x : α) : List α :=
  if x ∈ l then l else l ++ [x]

/-- `Array.from(set)` after adding all elements of `xs` to the set `l`. -/
def jsSetAddAll {α : Type} [DecidableEq α] (l : List α) (xs : List α) : List α :=
  xs.foldl jsSetAdd l

/-- The card format, fixed for a whole generation run. -/
inductive CardType where
  | basic : CardType
  | cloze : CardType
  | image : CardType
  deriving DecidableEq, Repr

/-- The `FlashCard` record as built at runtime.  The TypeScript interface
declares `front`/`back` as strings, but the validator copies whatever JSON
values the upstream reply carried, so the runtime fields are arbitrary JSON
values; the rule-based fallback always stores strings in them. -/
structure FlashCard where
  id : String
  front : Json
  back : Json
  type : CardType
  tags : List Json
  context : Option Json
  difficulty : Json
  deriving DecidableEq

/-- The `ExtractionResult` record (the `summary` field holds whatever JSON
value `parsed.summary || ...` produced; the fallback stores a string). -/
structure ExtractionResult where
  cards : List FlashCard
  concepts : List Json
  summary : Json
  medicalTerms : List Json
  deriving DecidableEq

/-- The id template `card-${Date.now()}-${index}`. -/
def cardId (now idx : Nat) : String :=
  "card-" ++ Nat.repr now ++ "-" ++ Nat.repr idx

theorem lengthDropWhileLe {α : Type} (p : α → Bool) (l : List α) :
    (l.dropWhile p).length ≤ l.length := by
  induction l with
  | nil => simp
  | cons c cs ih =>
    by_cases h : p c
    · simp [List.dropWhile, h]; omega
    · simp [List.dropWhile, h]

mutual

/-- The string JavaScript produces for a value interpolated into
`Array.prototype.join(' ')`: strings verbatim, numbers and booleans via
`String(...)`, `null` as the empty string, arrays joined with commas,
objects as `[object Object]`. -/
def jsToDisplayString : Json → String
  | .null => ""
  | .bool b => if b then "true" else "false"
  | .num n => toString n
  | .str s => s
  | .arr xs => String.intercalate "," (jsToDisplayStringList xs)
  | .obj _ => "[object Object]"

def jsToDisplayStringList : List Json → List String
  | [] => []
  | x :: xs => jsToDisplayString x :: jsToDisplayStringList xs

end

/-- `text.split(/\n\n+/)` worker: a run of two or more newlines separates
sections; empty pieces are kept, exactly as `String.prototype.split` does.
The flag is `true` while consuming the tail of a separator run (the greedy
`+`), during which the accumulator is empty. -/
def splitSectionsAux : Bool → List Char → List Char → List (List Char)
  | _, [], acc => [acc.reverse]
  | true, '\n' :: rest, acc => splitSectionsAux true rest acc
  | true, c :: rest, acc => splitSectionsAux false rest (c :: acc)
  | false, '\n' :: '\n' :: rest, acc => acc.reverse :: splitSectionsAux true rest []
  | false, c :: rest, acc => splitSectionsAux false rest (c :: acc)

/-- `text.split(/\n\n+/)`. -/
def splitSections (t : String) : List String :=
  (splitSectionsAux false t.data []).map (fun l => String.mk l)

namespace AIServiceOpenAI

/-- One iteration of the section-accumulation loop of `intelligentChunk`:
flush the running chunk (trimmed) when adding the next section would push it
past 6000 characters, otherwise append the section with a `"\n\n"` joiner. -/
def chunkStep : List String × String → String → List String × String
  | (chunks, currentChunk), sect =>
    if currentChunk.length + sect.length > 6000 ∧ currentChunk.length > 0 then
      (chunks ++ [jsTrim currentChunk], sect)
    else
      (chunks, currentChunk ++ (if currentChunk ≠ "" then "\n\n" else "") ++ sect)

/-- The character-count slicing fallback:
`for (i = 0; i < text.length; i += 6000) chunks.push(text.substring(i, i + 6000))`.
The fuel argument (instantiated with the list length, which always
suffices) only makes the recursion structural. -/
def charSlicesGo : Nat → List Char → List String
  | _, [] => []
  | 0, _ :: _ => []
  | fuel + 1, c :: rest =>
    String.mk ((c :: rest).take 6000) :: charSlicesGo fuel ((c :: rest).drop 6000)

def charSlices (l : List Char) : List String := charSlicesGo l.length l

/-- `AIService.intelligentChunk` (chunked OpenAI variant, part_007 lines
115–150): texts of at most 6000 characters pass through as one chunk; longer
texts are split at blank-line boundaries with trimmed accumulation, and the
raw slicing fallback fires when that produced nothing or a single oversized
chunk. -/
def intelligentChunk (text : String) : List String :=
  if text.length ≤ 6000 then [text]
  else
    let sections := splitSections text
    let folded := sections.foldl chunkStep ([], "")
    let chunks :=
      if jsTrim folded.2 ≠ "" then folded.1 ++ [jsTrim folded.2] else folded.1
    match chunks with
    | [] => charSlices text.data
    | [c] => if 6000 < c.length then charSlices text.data else [c]
    | cs => cs

/-- Worker for the duplicate-card filter: a card is kept exactly when no
earlier card (kept or not) had the same `front`. -/
def dedupeByFrontAux : List Json → List FlashCard → List FlashCard
  | _, [] => []
  | seen, c :: rest =>
    if c.front ∈ seen then dedupeByFrontAux (c.front :: seen) rest
    else c :: dedupeByFrontAux (c.front :: seen) rest

/-- `allCards.filter((card, index, self) => index === self.findIndex(c => c.front === card.front))`:
keep each card exactly when it is the first occurrence of its `front`. -/
def dedupeByFront (l : List FlashCard) : List FlashCard := dedupeByFrontAux [] l

/-- `AIService.combineResults` (part_007 lines 152–176): concatenate cards,
drop later duplicate fronts, union concept/term sets in insertion order and
join the truthy summaries with single spaces (with a fixed placeholder when
no summary was collected). -/
def combineResults (results : List ExtractionResult) : ExtractionResult :=
  let acc := results.foldl
    (fun (acc : List FlashCard × List Json × List Json × List Json) r =>
      (acc.1 ++ r.cards,
       jsSetAddAll acc.2.1 r.concepts,
       jsSetAddAll acc.2.2.1 r.medicalTerms,
       if jsTruthy r.summary then acc.2.2.2 ++ [r.summary] else acc.2.2.2))
    ([], [], [], [])
  { cards := dedupeByFront acc.1
    concepts := acc.2.1
    medicalTerms := acc.2.2.1
    summary :=
      if acc.2.2.2.length > 0 then
        .str (String.intercalate " " (acc.2.2.2.map jsToDisplayString))
      else .str "Combined content from multiple sections" }

/-- Outcome of one `fetch` of the upstream endpoint, as the retry loop
observes it: `ok body` is a 2xx reply whose decoded
`data.choices[0].message.content` is `body`; `status c` is a non-2xx HTTP
status; `thrown` is a network/decoding exception raised by the attempt. -/
inductive FetchOutcome where
  | ok (body : String)
  | status (code : Nat)
  | thrown
  deriving DecidableEq

/-- The errors `callOpenAI` can throw. `exhausted` is the `Failed to call
OpenAI API after all retries.` throw after the loop, which is unreachable
when `MAX_RETRIES > 0`. -/
inductive CallError where
  | unauthorized
  | rateLimited
  | httpError (code : Nat)
  | transportError
  | exhausted
  deriving DecidableEq

def MAX_RETRIES : Nat := 5

def INITIAL_DELAY_MS : Nat := 1000

/-- The retry loop of `AIService.callOpenAI` (part_007 lines 289–363), with
the attempt counter and remaining fuel (`MAX_RETRIES - attempt`) explicit.
Returns the outcome, the number of upstream calls made, and the list of
backoff delays slept before retries.  The `catch` block's re-entry guard for
rate-limit errors is dead code (that message is only thrown on the final
attempt), so the loop reduces to: success returns; 401 and unrecognized
statuses and thrown exceptions re-throw immediately; 429 sleeps
`1000 * 2^attempt + jitter` and retries unless the attempt budget is spent. -/
def callLoop (resp : Nat → FetchOutcome) (jitter : Nat → Nat) (base : Nat) :
    Nat → Nat → Except CallError String × Nat × List Nat
  | _, 0 => (.error .exhausted, 0, [])
  | attempt, fuel + 1 =>
    match resp (base + attempt) with
    | .ok body => (.ok body, 1, [])
    | .thrown => (.error .transportError, 1, [])
    | .status code =>
      if code = 401 then (.error .unauthorized, 1, [])
      else if code = 429 then
        if attempt < MAX_RETRIES - 1 then
          let delay := INITIAL_DELAY_MS * 2 ^ attempt + jitter attempt
          let rec_ := callLoop resp jitter base (attempt + 1) fuel
          (rec_.1, rec_.2.1 + 1, delay :: rec_.2.2)
        else (.error .rateLimited, 1, [])
      else (.error (.httpError code), 1, [])

/-- `AIService.callOpenAI`: run the retry loop from attempt 0 with the full
budget.  `base` is the number of upstream calls the surrounding run had
already made (the oracle `resp` is indexed by global call number). -/
def callOpenAI (resp : Nat → FetchOutcome) (jitter : Nat → Nat) (base : Nat) :
    Except CallError String × Nat × List Nat :=
  callLoop resp jitter base 0 MAX_RETRIES

/-- The single error `parseAIResponse` can throw (`Failed to parse AI
response. Please try again.`); every internal exception is converted to it. -/
inductive ParseErr where
  | failed
  deriving DecidableEq

/-- The card constructor inside `parseAIResponse`'s `.map`: property reads on
a `null` array element throw (`error`), otherwise each field is coerced
exactly as the source does. -/
def toRawCard (format : CardType) (now idx : Nat) (j : Json) : Except Unit FlashCard :=
  match j with
  | .null => .error ()
  | _ => .ok
    { id := cardId now idx
      front := jsOr (getField j "front") (.str "")
      back := jsOr (getField j "back") (.str "")
      type := format
      tags := asArr (getField j "tags")
      context := getField j "context"
      difficulty := jsOr (getField j "difficulty") (.str "medium") }

/-- `(parsed.cards || []).map((card, index) => ...)`. -/
def mapCards (format : CardType) (now : Nat) : List Json → Nat → Except Unit (List FlashCard)
  | [], _ => .ok []
  | j :: rest, idx =>
    match toRawCard format now idx j with
    | .error e => .error e
    | .ok c =>
      match mapCards format now rest (idx + 1) with
      | .error e => .error e
      | .ok cs => .ok (c :: cs)

/-- `AIService.parseAIResponse` (part_007 lines 365–392).  `jp` stands for
`JSON.parse` (`none` = syntax error).  A reply that parses to `null` throws a
`TypeError` at the property read `parsed.cards` (rethrown by the catch block
as the parse failure); on any other parse result the read yields the field
for an object and `undefined` otherwise, so an empty or absent `cards` field
is NOT rejected: it yields a zero-card `ExtractionResult`. -/
def parseAIResponse (jp : String → Option Json) (now : Nat) (response : String)
    (format : CardType) : Except ParseErr ExtractionResult :=
  match jp response with
  | none => .error .failed
  | some parsed =>
    if parsed = Json.null then .error .failed
    else
      match jsOrEmptyList (getField parsed "cards") with
      | .error _ => .error .failed
      | .ok rawCards =>
        match mapCards format now rawCards 0 with
        | .error _ => .error .failed
        | .ok mapped =>
          .ok { cards := mapped.filter (fun c => jsTruthy c.front && jsTruthy c.back)
                concepts := asArr (getField parsed "concepts")
                summary := jsOr (getField parsed "summary") (.str "No summary available")
                medicalTerms := asArr (getField parsed "medicalTerms") }

end AIServiceOpenAI

/-- Case-insensitive literal-prefix test (`/i`-flag matching of a fixed
alternative at a position). -/
def ciHasPrefix (l : List Char) (pat : String) : Bool :=
  (pat.data.map jsToLowerChar).isPrefixOf (l.map jsToLowerChar)

/-- `[A-ZÀ-Ö]`. -/
def upperAZAO (c : Char) : Bool :=
  decide ('A' ≤ c ∧ c ≤ 'Z') || decide ('À' ≤ c ∧ c ≤ 'Ö')

/-- `[A-Z]`. -/
def upperAZ (c : Char) : Bool :=
  decide ('A' ≤ c ∧ c ≤ 'Z')

/-- The separator class `[:—-]` of the definition patterns. -/
def sepChar (c : Char) : Bool :=
  c = ':' ∨ c = '—' ∨ c = '-'

/-- Group 2 of a trailing `\s*(.+)$`: greedy `\s*` eats the leading
whitespace but gives one character back when everything left is whitespace
(`(.+)` needs at least one character); `none` when the remainder is empty. -/
def wsGroupTail (rest : List Char) : Option (List Char) :=
  if rest = [] then none
  else
    let stripped := rest.dropWhile jsIsSpace
    if stripped = [] then some (rest.drop (rest.length - 1)) else some stripped

/-- `/^([X][^:—-]{2,50})[:—-]\s*(.+)$/` for a first-character class `X`:
since the separator characters are excluded from the repeated class, group 1
must run exactly to the first separator, whose offset determines the match. -/
def defMatch (firstClass : Char → Bool) (line : String) : Option (String × String) :=
  match line.data with
  | [] => none
  | c :: rest =>
    if firstClass c then
      let runLen := (rest.takeWhile (fun d => ¬ sepChar d)).length
      if 2 ≤ runLen ∧ runLen ≤ 50 ∧ runLen < rest.length then
        match wsGroupTail (rest.drop (runLen + 1)) with
        | some g2 => some (String.mk (c :: rest.take runLen), String.mk g2)
        | none => none
      else none
    else none

/-- `/^[•\-*]\s*(.+)$/`. -/
def bulletMatch (line : String) : Option String :=
  match line.data with
  | [] => none
  | c :: rest =>
    if c = '•' ∨ c = '-' ∨ c = '*' then
      match wsGroupTail rest with
      | some g => some (String.mk g)
      | none => none
    else none

/-- `/^\d+[\.)]\s*(.+)$/` (the part_008 variant uses `[\.]` only; the flag
chooses whether `)` is accepted after the digits). -/
def numberedMatch (allowParen : Bool) (line : String) : Option String :=
  let d := line.data
  let digits := d.takeWhile Char.isDigit
  if digits ≠ [] ∧ digits.length < d.length then
    match d.drop digits.length with
    | c :: rest =>
      if c = '.' ∨ (allowParen ∧ c = ')') then
        match wsGroupTail rest with
        | some g => some (String.mk g)
        | none => none
      else none
    | [] => none
  else none

/-- Generic leftmost-match scanner: `m` reports the length of a match
anchored at the given suffix; the scanner returns the first index (and
length) at which `m` fires. -/
def scanMatch (m : List Char → Option Nat) : Nat → List Char → Option (Nat × Nat)
  | _, [] => none
  | i, c :: rest =>
    match m (c :: rest) with
    | some n => some (i, n)
    | none => scanMatch m (i + 1) rest

/-- First index at which `pat` occurs as a contiguous substring. -/
def findSubAux (pat : List Char) : Nat → List Char → Option Nat
  | i, [] => if pat = [] then some i else none
  | i, c :: rest => if pat.isPrefixOf (c :: rest) then some i else findSubAux pat (i + 1) rest

namespace AIServiceOpenAI

/-- The unit alternation of the number-cloze replacement regex and of
`generateQuestionFromStatement`'s number pattern
(`D|dioptries?|%|mm|cm|ans?|mois|semaines?`, case-insensitive), tried in
source order; note `D` case-insensitively swallows the first letter of
`dioptrie...`, so that alternative can never fire. -/
def clozeUnitLen (l : List Char) : Option Nat :=
  if ciHasPrefix l "D" then some 1
  else if ciHasPrefix l "dioptries" then some 9
  else if ciHasPrefix l "dioptrie" then some 8
  else if ciHasPrefix l "%" then some 1
  else if ciHasPrefix l "mm" then some 2
  else if ciHasPrefix l "cm" then some 2
  else if ciHasPrefix l "ans" then some 3
  else if ciHasPrefix l "an" then some 2
  else if ciHasPrefix l "mois" then some 4
  else if ciHasPrefix l "semaines" then some 8
  else if ciHasPrefix l "semaine" then some 7
  else none

/-- The unit alternation of the `hasNumber` test
(`D|dioptries|dioptrie|%|mm|cm|ans|mois|semaines`, case-insensitive). -/
def numTestUnitLen (l : List Char) : Option Nat :=
  if ciHasPrefix l "D" then some 1
  else if ciHasPrefix l "dioptries" then some 9
  else if ciHasPrefix l "dioptrie" then some 8
  else if ciHasPrefix l "%" then some 1
  else if ciHasPrefix l "mm" then some 2
  else if ciHasPrefix l "cm" then some 2
  else if ciHasPrefix l "ans" then some 3
  else if ciHasPrefix l "mois" then some 4
  else if ciHasPrefix l "semaines" then some 8
  else none

/-- Anchored match length of `\d+[.,]?\d*\s*UNIT`: maximal digit run, then
(preferring the branch that consumes it) an optional `.`/`,` with further
digits, maximal whitespace, and a unit from the alternation.  Greedy
backtracking inside the digit run cannot create matches this misses, because
no unit starts with a digit or whitespace. -/
def numMatchAt (unit : List Char → Option Nat) (l : List Char) : Option Nat :=
  let d1 := l.takeWhile Char.isDigit
  if d1 = [] then none
  else
    let after := l.drop d1.length
    let unitTail : List Char → Option Nat := fun t =>
      let ws := t.takeWhile jsIsSpace
      match unit (t.drop ws.length) with
      | some ul => some (ws.length + ul)
      | none => none
    let withSep : Option Nat :=
      match after with
      | c :: rest2 =>
        if c = '.' ∨ c = ',' then
          let d2 := rest2.takeWhile Char.isDigit
          match unitTail (rest2.drop d2.length) with
          | some n => some (d1.length + 1 + d2.length + n)
          | none => none
        else none
      | [] => none
    match withSep with
    | some n => some n
    | none =>
      match unitTail after with
      | some n => some (d1.length + n)
      | none => none

/-- `/\d+[.,]?\d*\s*(D|dioptries|dioptrie|%|mm|cm|ans|mois|semaines)/i.test(content)`. -/
def hasNumberTest (content : String) : Bool :=
  (scanMatch (numMatchAt numTestUnitLen) 0 content.data).isSome

/-- `/myopie|hypermétropie|astigmatisme|réfraction|accommodation|cycloplégie/i.test(content)`. -/
def hasKeyTermTest (content : String) : Bool :=
  ["myopie", "hypermétropie", "astigmatisme", "réfraction", "accommodation",
   "cycloplégie"].any (ciIncludes content)

/-- `content.replace(/(\d+[.,]?\d*\s*(?:D|dioptries?|%|mm|cm|ans?|mois|semaines?))/i, '\x7b\x7bc1::$1\x7d\x7d')`,
returning `none` when the pattern does not occur (so the caller keeps the
original string). -/
def clozeNumReplace (content : List Char) : Option (List Char) :=
  match scanMatch (numMatchAt clozeUnitLen) 0 content with
  | none => none
  | some (i, n) =>
    some (content.take i
      ++ ("\x7b\x7bc1::".data ++ (content.drop i).take n ++ "\x7d\x7d".data)
      ++ content.drop (i + n))

/-- The key-term alternation of the cloze fallback replacement
(`myopie|hypermétropie|astigmatisme|réfraction|accommodation|cycloplégie|emmétropisation`,
case-insensitive), in source order. -/
def keyTermLen (l : List Char) : Option Nat :=
  if ciHasPrefix l "myopie" then some 6
  else if ciHasPrefix l "hypermétropie" then some 13
  else if ciHasPrefix l "astigmatisme" then some 12
  else if ciHasPrefix l "réfraction" then some 10
  else if ciHasPrefix l "accommodation" then some 13
  else if ciHasPrefix l "cycloplégie" then some 11
  else if ciHasPrefix l "emmétropisation" then some 15
  else none

/-- `content.replace(keyTermMatch[0], '\x7b\x7bc1::' + keyTermMatch[0] + '\x7d\x7d')`:
the string replace hits the regex-match position, because an earlier
occurrence of the matched text would itself have been an earlier
(case-insensitive) regex match. -/
def keyTermReplace (content : List Char) : Option (List Char) :=
  match scanMatch keyTermLen 0 content with
  | none => none
  | some (i, n) =>
    some (content.take i
      ++ ("\x7b\x7bc1::".data ++ (content.drop i).take n ++ "\x7d\x7d".data)
      ++ content.drop (i + n))

/-- `content.match(/\x7b\x7bc1::(.+?)\x7d\x7d/)?.[1]`: lazily the first
non-empty run after the first `\x7b\x7bc1::` marker up to the next `\x7d\x7d`. -/
def clozeBackMatch (s : String) : Option String :=
  match findSubAux "\x7b\x7bc1::".data 0 s.data with
  | none => none
  | some i =>
    match s.data.drop (i + 6) with
    | [] => none
    | a :: rest =>
      match findSubAux "\x7d\x7d".data 0 rest with
      | none => none
      | some j => some (String.mk (a :: rest.take j))

/-- `/^([A-ZÀ-Ö][A-ZÀ-Öa-zà-ö\s]{3,50})$/.test(line)`. -/
def headerTest (line : String) : Bool :=
  match line.data with
  | [] => false
  | c :: rest =>
    upperAZAO c && rest.all (fun d =>
        upperAZAO d || decide ('a' ≤ d ∧ d ≤ 'z') || decide ('à' ≤ d ∧ d ≤ 'ö') || jsIsSpace d)
      && decide (3 ≤ rest.length) && decide (rest.length ≤ 50)

/-- The character class kept by `extractTag`'s `replace(/[^a-zA-ZÀ-ÿ]/g, '')`. -/
def tagLetter (c : Char) : Bool :=
  decide ('a' ≤ c ∧ c ≤ 'z') || decide ('A' ≤ c ∧ c ≤ 'Z') || decide ('À' ≤ c ∧ c ≤ 'ÿ')

/-- `AIService.extractTag` (part_007 lines 586–600). -/
def extractTag (text : String) : String :=
  let words := jsSplitOnChar ' ' text
  let firstWord := String.mk ((words.headD "").data.filter tagLetter)
  let lowerText := jsToLower text
  match ["retina", "cornea", "lens", "vision", "anatomy", "physiology", "myopie",
    "hypermétropie", "astigmatisme", "réfraction"].find? (fun term => jsIncludes lowerText term) with
  | some term => term
  | none => if jsToLower firstWord ≠ "" then jsToLower firstWord else "general"

/-- `AIService.isMedicalTerm` (part_007 lines 602–605). -/
def isMedicalTerm (text : String) : Bool :=
  ["ophthalm", "retina", "cornea", "medical", "clinical", "diagnosis", "treatment",
   "symptom", "disease", "condition", "myopie", "hypermétropie", "dioptrie"].any (ciIncludes text)

/-- `AIService.generateQuestion` (part_007 lines 534–547). -/
def generateQuestion (term definition : String) : String :=
  if ((match term.data with | c :: _ => upperAZAO c | [] => false)
      && (jsIncludes definition "est" || jsIncludes definition "sont")) then
    "Qu\x27est-ce que " ++ jsToLower term ++ "?"
  else if definition.data.any Char.isDigit then
    "Quelle est la valeur de " ++ jsToLower term ++ "?"
  else "What is " ++ term ++ "?"

/-- One split candidate of `/^(.+?)\s+(?:est|sont)\s+(.+)$/i`:
`revPre.reverse` is the group-1 candidate, `suf` the remainder which must be
whitespace, the keyword, whitespace and a non-empty group 2. -/
def estSontAt (revPre suf : List Char) : Option (List Char × List Char) :=
  if revPre = [] then none
  else
    let ws1 := suf.takeWhile jsIsSpace
    if ws1 = [] then none
    else
      let afterWs := suf.drop ws1.length
      let kwLen : Option Nat :=
        if ciHasPrefix afterWs "est" then some 3
        else if ciHasPrefix afterWs "sont" then some 4
        else none
      match kwLen with
      | none => none
      | some k =>
        let afterKw := afterWs.drop k
        let ws2 := afterKw.takeWhile jsIsSpace
        if ws2 = [] then none
        else
          let beyond := afterKw.drop ws2.length
          if beyond ≠ [] then some (revPre.reverse, beyond)
          else if 2 ≤ ws2.length then some (revPre.reverse, afterKw.drop (afterKw.length - 1))
          else none

/-- Lazy scan for `/^(.+?)\s+(?:est|sont)\s+(.+)$/i`: grow group 1 one
character at a time and take the first split that completes the pattern. -/
def estSontScan (revPre suf : List Char) : Option (List Char × List Char) :=
  match estSontAt revPre suf with
  | some r => some r
  | none =>
    match suf with
    | [] => none
    | c :: rest => estSontScan (c :: revPre) rest

/-- One candidate for the lazy group 1 of the tendency pattern: the
remainder must be whitespace, `ont tendance à`/`a tendance à`, whitespace
and a non-empty group 2. -/
def tendencyCheck (revG suf : List Char) : Option (List Char) :=
  if revG = [] then none
  else
    let ws1 := suf.takeWhile jsIsSpace
    if ws1 = [] then none
    else
      let after := suf.drop ws1.length
      let phLen : Option Nat :=
        if ciHasPrefix after "ont tendance à" then some 14
        else if ciHasPrefix after "a tendance à" then some 12
        else none
      match phLen with
      | none => none
      | some k =>
        let afterPh := after.drop k
        let ws2 := afterPh.takeWhile jsIsSpace
        if ws2 = [] then none
        else if afterPh.drop ws2.length ≠ [] ∨ 2 ≤ ws2.length then some revG.reverse
        else none

def tendencyInner (revG suf : List Char) : Option (List Char) :=
  match tendencyCheck revG suf with
  | some g => some g
  | none =>
    match suf with
    | [] => none
    | c :: rest => tendencyInner (c :: revG) rest

/-- Anchored attempt of `/les?\s+(.+?)\s+(?:ont tendance à|a tendance à)\s+(.+)/i`
at the head of `l` (greedy `s?`: `les` is preferred, `le` is the backtrack). -/
def tendencyAt (l : List Char) : Option (List Char) :=
  let tryTail : List Char → Option (List Char) := fun afterLe =>
    let ws := afterLe.takeWhile jsIsSpace
    if ws = [] then none
    else
      match afterLe.drop ws.length with
      | [] => none
      | c :: rest => tendencyInner [c] rest
  if ciHasPrefix l "les" then
    match tryTail (l.drop 3) with
    | some g => some g
    | none => if ciHasPrefix l "le" then tryTail (l.drop 2) else none
  else if ciHasPrefix l "le" then tryTail (l.drop 2)
  else none

/-- Leftmost match of the (unanchored) tendency pattern, returning group 1. -/
def tendencyScan : List Char → Option (List Char)
  | [] => none
  | c :: rest =>
    match tendencyAt (c :: rest) with
    | some g => some g
    | none => tendencyScan rest

/-- `AIService.generateQuestionFromStatement` (part_007 lines 549–584).  The
`context` parameter is received but never read by the source. -/
def generateQuestionFromStatement (statement _context : String) : Option String :=
  let stage1 : Option String :=
    match (match statement.data with
           | [] => none
           | c :: rest => estSontScan [c] rest) with
    | some (g1, _) =>
      let subject := jsTrim (String.mk g1)
      if subject.length < 60 then some ("Qu\x27est-ce que " ++ jsToLower subject ++ "?")
      else none
    | none => none
  match stage1 with
  | some q => some q
  | none =>
    let stage2 : Option String :=
      match scanMatch (numMatchAt clozeUnitLen) 0 statement.data with
      | some (i, _) =>
        let before := jsTrim (jsSubstring statement 0 i)
        if 5 < before.length ∧ before.length < 100 then
          some ("Quelle est la valeur de " ++ jsToLower before ++ "?")
        else none
      | none => none
    match stage2 with
    | some q => some q
    | none =>
      match tendencyScan statement.data with
      | some g1 => some ("Comment évoluent " ++ String.mk g1 ++ "?")
      | none =>
        if statement.length < 150 ∧ statement.length > 30 then
          some ("Expliquez: " ++ String.intercalate " " ((jsSplitOnChar ' ' statement).take 5) ++ "...")
        else none

end AIServiceOpenAI

namespace AIServiceOpenAI

/-- The mutable state of `fallbackExtraction`'s line loop: accumulated
cards, the two insertion-ordered sets, and the `currentSection` /
`previousLine` variables. -/
structure FallbackState where
  cards : List FlashCard
  concepts : List String
  terms : List String
  currentSection : String
  previousLine : String

/-- One iteration of `lines.forEach((line, index) => ...)` of
`AIService.fallbackExtraction` (part_007 lines 417–520).  The source
`return`s before the trailing `previousLine = line` on the guard, header and
definition branches, so only fall-through lines update `previousLine`. -/
def fallbackStep (now : Nat) (format : CardType) (st : FallbackState) :
    Nat × String → FallbackState
  | (index, line) =>
    if line.length < 15 ∨ st.cards.length ≥ 40 then st
    else if headerTest line ∧ line.length < 80 ∧ ¬ jsIncludes line "." then
      { st with currentSection := extractTag line }
    else
      match defMatch upperAZAO line with
      | some (term, definition) =>
        let cleanTerm := jsTrim term
        let cleanDef := jsTrim definition
        if cleanDef.length > 10 ∧ cleanDef.length < 500 then
          let card : FlashCard :=
            if format = .cloze then
              { id := cardId now index
                front := .str (cleanTerm ++ ": \x7b\x7bc1::" ++ cleanDef ++ "\x7d\x7d")
                back := .str cleanDef
                type := format
                tags := [.str st.currentSection, .str (extractTag cleanTerm)]
                context := none
                difficulty := .str "medium" }
            else
              { id := cardId now index
                front := .str (generateQuestion cleanTerm cleanDef)
                back := .str cleanDef
                type := format
                tags := [.str st.currentSection, .str (extractTag cleanTerm)]
                context := none
                difficulty := .str "easy" }
          { st with
            cards := st.cards ++ [card]
            concepts := jsSetAdd st.concepts cleanTerm
            terms := if isMedicalTerm cleanTerm then jsSetAdd st.terms cleanTerm else st.terms }
        else st
      | none =>
        let content :=
          match bulletMatch line with
          | some c => c
          | none =>
            match numberedMatch true line with
            | some c => c
            | none => line
        let newCards :=
          if content.length > 20 ∧ content.length < 400 then
            let hasNumber := hasNumberTest content
            if hasNumber || hasKeyTermTest content
                || jsIncludes content " est " || jsIncludes content " sont " then
              if format = .cloze then
                let clozeContent :=
                  match clozeNumReplace content.data with
                  | some r => String.mk r
                  | none => content
                let clozeContent2 :=
                  if ¬ jsIncludes clozeContent "\x7b\x7bc1::" then
                    match keyTermReplace content.data with
                    | some r => String.mk r
                    | none => clozeContent
                  else clozeContent
                if jsIncludes clozeContent2 "\x7b\x7bc1::" then
                  st.cards ++
                    [{ id := cardId now index
                       front := .str clozeContent2
                       back := .str (match clozeBackMatch content with
                                     | some b => b
                                     | none => content)
                       type := format
                       tags := [.str st.currentSection, .str (extractTag content)]
                       context := none
                       difficulty := .str (if hasNumber then "hard" else "medium") }]
                else st.cards
              else
                match generateQuestionFromStatement content st.previousLine with
                | some q =>
                  st.cards ++
                    [{ id := cardId now index
                       front := .str q
                       back := .str content
                       type := format
                       tags := [.str st.currentSection, .str (extractTag content)]
                       context := none
                       difficulty := .str (if hasNumber then "medium" else "easy") }]
                | none => st.cards
            else st.cards
          else st.cards
        { st with cards := newCards, previousLine := line }

/-- The qualifying lines of the fallback extractor: trimmed, longer than 10
characters. -/
def fallbackLines (text : String) : List String :=
  ((jsSplitOnChar '\n' text).map jsTrim).filter (fun l => l.length > 10)

/-- The final loop state of `fallbackExtraction`'s `forEach`. -/
def fallbackAccum (text : String) (format : CardType) (now : Nat) : FallbackState :=
  (fallbackLines text).enum.foldl (fun st p => fallbackStep now format st p)
    { cards := [], concepts := [], terms := [], currentSection := "general", previousLine := "" }

/-- `AIService.fallbackExtraction` (part_007 lines 394–532): split into
trimmed lines longer than 10 characters, run the pattern loop, and cap the
emitted cards at 40, the concepts at 20 and the medical terms at 15. -/
def fallbackExtraction (text : String) (format : CardType) (now : Nat) : ExtractionResult :=
  let lines := fallbackLines text
  let final := fallbackAccum text format now
  let summary := jsSubstring (String.intercalate " " (lines.take 3)) 0 250 ++ "..."
  { cards := final.cards.take 40
    concepts := (final.concepts.take 20).map Json.str
    summary := .str summary
    medicalTerms := (final.terms.take 15).map Json.str }

/-- A failure of the chunk pipeline: either the upstream caller or the
response parser threw. -/
inductive RunError where
  | call (e : CallError)
  | parse (e : ParseErr)
  deriving DecidableEq

/-- The multi-chunk loop of `generateFlashcards` (part_007 lines 74–88):
chunks are processed strictly sequentially; the first thrown error aborts
the loop (the surrounding `try` catches it).  Returns the per-chunk results
and the total number of upstream calls made. -/
def runChunks (resp : Nat → FetchOutcome) (jitter : Nat → Nat) (jp : String → Option Json)
    (now : Nat) (format : CardType) :
    List String → Nat → Except RunError (List ExtractionResult) × Nat
  | [], calls => (.ok [], calls)
  | _chunk :: rest, calls =>
    match callOpenAI resp jitter calls with
    | (.error e, n, _) => (.error (.call e), calls + n)
    | (.ok body, n, _) =>
      match parseAIResponse jp now body format with
      | .error e => (.error (.parse e), calls + n)
      | .ok r =>
        match runChunks resp jitter jp now format rest (calls + n) with
        | (.ok rs, total) => (.ok (r :: rs), total)
        | (.error e, total) => (.error e, total)

/-- The body of `generateFlashcards`'s `try` block (part_007 lines 60–92):
one chunk is called and parsed directly; several chunks run the sequential
loop and combine.  Returns the result (or first thrown error) and the number
of upstream calls made. -/
def pipeline (resp : Nat → FetchOutcome) (jitter : Nat → Nat) (jp : String → Option Json)
    (now : Nat) (text : String) (format : CardType) :
    Except RunError ExtractionResult × Nat :=
  match intelligentChunk text with
  | [_c] =>
    match callOpenAI resp jitter 0 with
    | (.error e, n, _) => (.error (.call e), n)
    | (.ok body, n, _) =>
      match parseAIResponse jp now body format with
      | .error e => (.error (.parse e), n)
      | .ok r => (.ok r, n)
  | cs =>
    match runChunks resp jitter jp now format cs 0 with
    | (.ok rs, total) => (.ok (combineResults rs), total)
    | (.error e, total) => (.error e, total)

/-- `AIService.generateFlashcards` (part_007 lines 44–97): empty or
whitespace-only text short-circuits to the empty result; a missing API key
routes to the fallback extractor; otherwise the chunk pipeline runs and ANY
thrown error is caught and converted into `fallbackExtraction` over the
original text.  The second component counts upstream calls made. -/
def generateFlashcards (resp : Nat → FetchOutcome) (jitter : Nat → Nat)
    (jp : String → Option Json) (now : Nat) (apiKey : Option String)
    (text : String) (format : CardType) : ExtractionResult × Nat :=
  if text = "" ∨ (jsTrim text).length = 0 then
    ({ cards := [], concepts := [], summary := .str "", medicalTerms := [] }, 0)
  else
    match apiKey with
    | none => (fallbackExtraction text format now, 0)
    | some _ =>
      match pipeline resp jitter jp now text format with
      | (.ok r, n) => (r, n)
      | (.error _, n) => (fallbackExtraction text format now, n)

end AIServiceOpenAI

/-- `content.split(/ is | are | causes /)`: scan left to right, cutting at
each leftmost separator occurrence (alternatives tried in source order) and
resuming after it. -/
def splitSeps3Go : Nat → List Char → List Char → List String
  | _, [], acc => [String.mk acc.reverse]
  | 0, _ :: _, acc => [String.mk acc.reverse]
  | fuel + 1, c :: rest, acc =>
    if " is ".data.isPrefixOf (c :: rest) then
      String.mk acc.reverse :: splitSeps3Go fuel ((c :: rest).drop 4) []
    else if " are ".data.isPrefixOf (c :: rest) then
      String.mk acc.reverse :: splitSeps3Go fuel ((c :: rest).drop 5) []
    else if " causes ".data.isPrefixOf (c :: rest) then
      String.mk acc.reverse :: splitSeps3Go fuel ((c :: rest).drop 9) []
    else splitSeps3Go fuel rest (c :: acc)

def splitSeps3 (l : List Char) : List String := splitSeps3Go l.length l []

/-- `s.replace(pat, repl)` with a plain string pattern: replace the first
occurrence only. -/
def replaceFirstStr (s pat repl : String) : String :=
  match findSubAux pat.data 0 s.data with
  | none => s
  | some i => String.mk (s.data.take i ++ repl.data ++ s.data.drop (i + pat.data.length))

namespace AIServiceHF

/-- `AIService.extractTag` (part_008 lines 248–262). -/
def extractTag (text : String) : String :=
  let words := jsSplitOnChar ' ' text
  let firstWord := String.mk ((words.headD "").data.filter (fun c =>
    decide ('a' ≤ c ∧ c ≤ 'z') || decide ('A' ≤ c ∧ c ≤ 'Z')))
  let lowerText := jsToLower text
  match ["retina", "cornea", "lens", "glaucoma", "cataract", "refraction",
      "vision"].find? (fun term => jsIncludes lowerText term) with
  | some term => term
  | none => if jsToLower firstWord ≠ "" then jsToLower firstWord else "general"

/-- `AIService.isMedicalTerm` (part_008 lines 264–267). -/
def isMedicalTerm (text : String) : Bool :=
  ["ophthalm", "retina", "cornea", "glaucoma", "cataract", "refract", "myopi",
   "hyperop", "astigmat", "presbyop", "macula", "optic", "visual", "acuity",
   "anterior", "posterior", "vitreous", "choroid", "sclera", "uvea", "iris",
   "pupil", "lens", "accommodation", "convergence", "strabismus", "amblyopia",
   "diplopia", "nystagmus"].any (ciIncludes text)

/-- The loop state of the part_008 fallback: cards plus the two sets. -/
structure FallbackState where
  cards : List FlashCard
  concepts : List String
  terms : List String

/-- One iteration of `lines.forEach((line, index) => ...)` of
`AIService.fallbackExtraction` (part_008 lines 174–234). -/
def fallbackStep (now : Nat) (format : CardType) (st : FallbackState) :
    Nat × String → FallbackState
  | (index, line) =>
    if line.length < 15 ∨ st.cards.length ≥ 25 then st
    else
      match defMatch upperAZ line with
      | some (term, definition) =>
        let cleanTerm := jsTrim term
        let cleanDef := jsTrim definition
        if cleanDef.length > 10 then
          { cards := st.cards ++
              [{ id := cardId now index
                 front := .str (if format = .cloze then
                     cleanTerm ++ ": \x7b\x7bc1::" ++ cleanDef ++ "\x7d\x7d"
                   else "What is " ++ cleanTerm ++ "?")
                 back := .str cleanDef
                 type := format
                 tags := [.str (extractTag cleanTerm)]
                 context := none
                 difficulty := .str "medium" }]
            concepts := jsSetAdd st.concepts cleanTerm
            terms := if isMedicalTerm cleanTerm then jsSetAdd st.terms cleanTerm else st.terms }
        else st
      | none =>
        let content :=
          match bulletMatch line with
          | some c => c
          | none =>
            match numberedMatch false line with
            | some c => c
            | none => line
        let newCards :=
          if content.length > 20 ∧ content.length < 200 then
            let words := jsSplitOnChar ' ' content
            if jsIncludes content " is " || jsIncludes content " are "
                || jsIncludes content " causes " then
              let parts := splitSeps3 content.data
              match parts with
              | [p0, p1] =>
                st.cards ++
                  [{ id := cardId now index
                     front := .str (if format = .cloze then
                         replaceFirstStr content p1 ("\x7b\x7bc1::" ++ p1 ++ "\x7d\x7d")
                       else "What does " ++ jsTrim p0 ++ " refer to?")
                     back := .str content
                     type := format
                     tags := [.str (extractTag content)]
                     context := none
                     difficulty := .str "easy" }]
              | _ => st.cards
            else if words.length > 5 then
              let midpoint := words.length / 2
              st.cards ++
                [{ id := cardId now index
                   front := .str (String.intercalate " " (words.take midpoint) ++ "...")
                   back := .str content
                   type := format
                   tags := [.str (extractTag content)]
                   context := none
                   difficulty := .str "easy" }]
            else st.cards
          else st.cards
        { st with cards := newCards }

/-- The final loop state of the part_008 fallback's `forEach`. -/
def fallbackAccum (text : String) (format : CardType) (now : Nat) : FallbackState :=
  (AIServiceOpenAI.fallbackLines text).enum.foldl (fun st p => fallbackStep now format st p)
    { cards := [], concepts := [], terms := [] }

/-- `AIService.fallbackExtraction` (part_008 lines 156–246): cap 25 cards,
15 concepts, 10 medical terms (the line filtering is identical to the
part_007 variant, hence the shared `fallbackLines`). -/
def fallbackExtraction (text : String) (format : CardType) (now : Nat) : ExtractionResult :=
  let lines := AIServiceOpenAI.fallbackLines text
  let final := fallbackAccum text format now
  let summary := jsSubstring (String.intercalate " " (lines.take 3)) 0 250 ++ "..."
  { cards := final.cards.take 25
    concepts := (final.concepts.take 15).map Json.str
    summary := .str summary
    medicalTerms := (final.terms.take 10).map Json.str }

end AIServiceHF

/-- `s.match(/\x7b[\s\S]*\x7d/)` (and the bracket analogue): greedy span
from the first opening character to the last closing character, provided the
latter comes after the former. -/
def spanMatch (openC closeC : Char) (s : String) : Option String :=
  match s.data.findIdx? (· = openC), s.data.reverse.findIdx? (· = closeC) with
  | some i, some rj =>
    let j := s.data.length - 1 - rj
    if i < j then some (String.mk ((s.data.take (j + 1)).drop i)) else none
  | _, _ => none

namespace AIServiceHFMulti

/-- The distinct throws of the part_006 `parseAIResponse` (all of them
propagate out of the `catch`, which re-throws). -/
inductive ParseErr6 where
  | noJson
  | invalidJson
  | typeError
  | emptyCards
  deriving DecidableEq

/-- The span-extraction stage of the part_006 `parseAIResponse`: re-attach
the prompt's JSON opening when the reply does not start with a brace, take
the brace span, or fall back to wrapping a bracket span of the original
reply in a minimal `cards` document. -/
def extractJsonSpan (response : String) : Option String :=
  let fullResponse :=
    if ¬ ("\x7b".data.isPrefixOf (jsTrim response).data) then
      "\x7b\n  \"cards\": [" ++ response
    else response
  match spanMatch '\x7b' '\x7d' fullResponse with
  | some m => some m
  | none =>
    match spanMatch '[' ']' response with
    | some b =>
      spanMatch '\x7b' '\x7d'
        ("\x7b\"cards\": " ++ b ++
          ", \"concepts\": [], \"medicalTerms\": [], \"summary\": \"Generated from text\"\x7d")
    | none => none

/-- `AIService.parseAIResponse` (part_006 lines 169–243): extract the JSON
span, `JSON.parse` it, map/filter the cards exactly as the other variants do
(`AIServiceOpenAI.mapCards` is character-identical code here), and throw
when no valid card survived. -/
def parseAIResponse (jp : String → Option Json) (now : Nat) (response : String)
    (format : CardType) : Except ParseErr6 ExtractionResult :=
  match extractJsonSpan response with
  | none => .error .noJson
  | some m =>
    match jp m with
    | none => .error .invalidJson
    | some parsed =>
      match jsOrEmptyList (getField parsed "cards") with
      | .error _ => .error .typeError
      | .ok rawCards =>
        match AIServiceOpenAI.mapCards format now rawCards 0 with
        | .error _ => .error .typeError
        | .ok mapped =>
          let cards := mapped.filter (fun c => jsTruthy c.front && jsTruthy c.back)
          if cards.length = 0 then .error .emptyCards
          else .ok
            { cards := cards
              concepts := asArr (getField parsed "concepts")
              summary := jsOr (getField parsed "summary") (.str "No summary available")
              medicalTerms := asArr (getField parsed "medicalTerms") }

end AIServiceHFMulti

/-- Decimal digit characters of `n`, most significant first (the list
`Nat.toDigits 10 n` computes with fuel; used to reason about `Nat.repr`). -/
def natToDigitList (n : Nat) : List Char :=
  if n < 10 then [Nat.digitChar n]
  else natToDigitList (n / 10) ++ [Nat.digitChar (n % 10)]
  decreasing_by exact Nat.div_lt_self (by omega) (by omega)

/-- Numeric value of a decimal digit character. -/
def digitVal (c : Char) : Nat := c.toNat - 48

/-- Value of a decimal digit string, most significant first. -/
def digitListVal (l : List Char) : Nat :=
  l.foldl (fun a c => 10 * a + digitVal c) 0

/-- A 6004-character input for the chunker: a 3000-character paragraph, a
2999-character paragraph and a one-character paragraph, separated by blank
lines.  No paragraph exceeds the 6000-character budget, but the first two
are accumulated into one 6001-character chunk because the length check does
not count the two-character `"\n\n"` joiner. -/
def chunkProbeText : String :=
  String.mk (List.replicate 3000 'a') ++ "\n\n" ++
    String.mk (List.replicate 2999 'b') ++ "\n\nx"

/-!
## Theorems

General-purpose lemmas first, then one theorem (plus witness or
counterexample) per specification claim.
-/

theorem toDigitsCore_eq (f : Nat) : ∀ (n : Nat) (ds : List Char), n < f →
    Nat.toDigitsCore 10 f n ds = natToDigitList n ++ ds := by
  induction f with
  | zero => intro n ds h; omega
  | succ f ih =>
    intro n ds h
    by_cases h10 : n / 10 = 0
    · have hn : n < 10 := by omega
      simp [Nat.toDigitsCore, h10, natToDigitList, hn, Nat.mod_eq_of_lt hn]
    · have hlt : n / 10 < f := by
        have := Nat.div_lt_self (by omega : 0 < n) (by omega : 1 < 10)
        omega
      have hge : ¬ n < 10 := by
        intro hc
        exact h10 (Nat.div_eq_of_lt hc)
      rw [show Nat.toDigitsCore 10 (f + 1) n ds =
          Nat.toDigitsCore 10 f (n / 10) (Nat.digitChar (n % 10) :: ds) by
        simp [Nat.toDigitsCore, h10]]
      rw [ih (n / 10) _ hlt]
      conv_rhs => rw [natToDigitList]
      simp [hge]

theorem digitVal_digitChar (m : Nat) (h : m < 10) : digitVal (Nat.digitChar m) = m := by
  interval_cases m <;> rfl

theorem digitListVal_natToDigitList (n : Nat) : digitListVal (natToDigitList n) = n := by
  induction n using Nat.strong_induction_on with
  | _ n ih =>
    by_cases h : n < 10
    · simp [natToDigitList, h, digitListVal, digitVal_digitChar n h]
    · rw [natToDigitList]
      simp only [h, if_false]
      unfold digitListVal
      rw [List.foldl_append]
      have hv := ih (n / 10) (Nat.div_lt_self (by omega) (by omega))
      unfold digitListVal at hv
      simp only [List.foldl_cons, List.foldl_nil]
      rw [hv, digitVal_digitChar _ (Nat.mod_lt _ (by omega))]
      omega

theorem natRepr_inj {m n : Nat} (h : Nat.repr m = Nat.repr n) : m = n := by
  have hd : natToDigitList m = natToDigitList n := by
    have h1 : Nat.toDigits 10 m = natToDigitList m := by
      simpa using toDigitsCore_eq (m + 1) m [] (by omega)
    have h2 : Nat.toDigits 10 n = natToDigitList n := by
      simpa using toDigitsCore_eq (n + 1) n [] (by omega)
    unfold Nat.repr at h
    rw [h1, h2] at h
    simpa [List.asString] using congrArg String.data h
  have := congrArg digitListVal hd
  rwa [digitListVal_natToDigitList, digitListVal_natToDigitList] at this

theorem stringAppendLeftCancel {p a b : String} (h : p ++ a = p ++ b) : a = b := by
  have hd : p.data ++ a.data = p.data ++ b.data := by
    have := congrArg String.data h
    simpa [String.data_append] using this
  have h2 := List.append_cancel_left hd
  cases a; cases b
  simp only at h2
  simp [h2]

theorem cardId_inj (now : Nat) {i j : Nat} (h : cardId now i = cardId now j) : i = j := by
  unfold cardId at h
  exact natRepr_inj (stringAppendLeftCancel h)

/-- C9: for every input text that is empty or consists only of whitespace,
`generateFlashcards` returns the terminal empty `ExtractionResult` (empty
cards, concepts, medical terms and an empty summary string) and makes zero
upstream calls. -/
theorem c9_empty_input_terminal (resp : Nat → AIServiceOpenAI.FetchOutcome)
    (jitter : Nat → Nat) (jp : String → Option Json) (now : Nat) (apiKey : Option String)
    (text : String) (format : CardType) (h : jsTrim text = "") :
    AIServiceOpenAI.generateFlashcards resp jitter jp now apiKey text format =
      ({ cards := [], concepts := [], summary := .str "", medicalTerms := [] }, 0) := by
  unfold AIServiceOpenAI.generateFlashcards
  simp [h]

theorem c9_empty_input_terminal_witness :
    AIServiceOpenAI.generateFlashcards (fun _ => .thrown) (fun _ => 0) (fun _ => none) 0
      (some "key") "   " .basic =
      ({ cards := [], concepts := [], summary := .str "", medicalTerms := [] }, 0) :=
  c9_empty_input_terminal _ _ _ _ _ _ _ (by decide)

/-- C3: with `RateLimited` (429) on attempts 1–4 and success on attempt 5,
`callOpenAI` makes exactly 5 upstream calls and returns the successful body,
sleeping before each retry `1000·2^attempt` ms plus a jitter bounded by 500;
with 429 on all 5 attempts it surfaces `RateLimited` only after the fifth
call, having slept the same four backoff delays. -/
theorem c3_rate_limited_backoff (resp : Nat → AIServiceOpenAI.FetchOutcome)
    (jitter : Nat → Nat) (body : String)
    (h4 : ∀ i, i < 4 → resp i = .status 429) (h5 : resp 4 = .ok body)
    (hj : ∀ i, jitter i < 500) :
    AIServiceOpenAI.callOpenAI resp jitter 0 =
      (.ok body, 5, [1000 + jitter 0, 2000 + jitter 1, 4000 + jitter 2, 8000 + jitter 3]) ∧
    (∀ i, i < 4 →
      1000 * 2 ^ i ≤ 1000 * 2 ^ i + jitter i ∧
      1000 * 2 ^ i + jitter i < 1000 * 2 ^ i + 500) ∧
    (∀ resp2 : Nat → AIServiceOpenAI.FetchOutcome,
      (∀ i, i < 5 → resp2 i = .status 429) →
      AIServiceOpenAI.callOpenAI resp2 jitter 0 =
        (.error .rateLimited, 5,
          [1000 + jitter 0, 2000 + jitter 1, 4000 + jitter 2, 8000 + jitter 3])) := by
  refine ⟨?_, ?_, ?_⟩
  · have e0 := h4 0 (by omega)
    have e1 := h4 1 (by omega)
    have e2 := h4 2 (by omega)
    have e3 := h4 3 (by omega)
    simp [AIServiceOpenAI.callOpenAI, AIServiceOpenAI.callLoop,
      AIServiceOpenAI.MAX_RETRIES, AIServiceOpenAI.INITIAL_DELAY_MS,
      e0, e1, e2, e3, h5]
  · intro i _
    exact ⟨Nat.le_add_right _ _, by have := hj i; omega⟩
  · intro resp2 hall
    have e0 := hall 0 (by omega)
    have e1 := hall 1 (by omega)
    have e2 := hall 2 (by omega)
    have e3 := hall 3 (by omega)
    have e4 := hall 4 (by omega)
    simp [AIServiceOpenAI.callOpenAI, AIServiceOpenAI.callLoop,
      AIServiceOpenAI.MAX_RETRIES, AIServiceOpenAI.INITIAL_DELAY_MS,
      e0, e1, e2, e3, e4]

theorem c3_rate_limited_backoff_witness :
    AIServiceOpenAI.callOpenAI (fun i => if i < 4 then .status 429 else .ok "BODY")
      (fun _ => 0) 0 = (.ok "BODY", 5, [1000, 2000, 4000, 8000]) :=
  (c3_rate_limited_backoff (fun i => if i < 4 then .status 429 else .ok "BODY")
    (fun _ => 0) "BODY" (fun i hi => by simp [hi]) (by norm_num) (fun _ => by norm_num)).1

/-- C7: the Fallback Extractor is total (it always returns an
`ExtractionResult`, degrading to an empty card list on inputs it cannot
mine) and caps the emitted cards at the deployment ceiling: 40 in the
chunked OpenAI variant, 25 in the Hugging Face variant. -/
theorem c7_fallback_total_and_capped (text : String) (format : CardType) (now : Nat) :
    (AIServiceOpenAI.fallbackExtraction text format now).cards.length ≤ 40 ∧
    (AIServiceHF.fallbackExtraction text format now).cards.length ≤ 25 ∧
    (AIServiceOpenAI.fallbackExtraction "" format now).cards = [] ∧
    (AIServiceHF.fallbackExtraction "" format now).cards = [] := by
  refine ⟨?_, ?_, ?_, ?_⟩
  · unfold AIServiceOpenAI.fallbackExtraction
    exact List.length_take_le _ _
  · unfold AIServiceHF.fallbackExtraction
    exact List.length_take_le _ _
  · cases format <;> rfl
  · cases format <;> rfl

/-- C2 (amended): only the Hugging Face multi-endpoint variant treats a
parsed reply with an empty or absent `cards` list as an extraction failure —
its parser never returns a successful result with zero cards, so such
replies become thrown errors (handled by its caller's fallback).  The
chunked OpenAI variant accepts the same reply as a valid zero-card
`ExtractionResult` of the upstream path whenever the parsed value is not
`null` (a `null` parse throws a `TypeError` at `parsed.cards`, which the
catch block rethrows as the parse failure). -/
theorem c2_zero_cards :
    (∀ (jp : String → Option Json) (now : Nat) (response : String) (format : CardType)
        (r : ExtractionResult),
        AIServiceHFMulti.parseAIResponse jp now response format = .ok r → r.cards ≠ []) ∧
    (∀ (jp : String → Option Json) (now : Nat) (response : String) (format : CardType)
        (parsed : Json), jp response = some parsed → parsed ≠ Json.null →
        (getField parsed "cards" = none ∨ getField parsed "cards" = some (.arr [])) →
        AIServiceOpenAI.parseAIResponse jp now response format =
          .ok { cards := [], concepts := asArr (getField parsed "concepts"),
                summary := jsOr (getField parsed "summary") (.str "No summary available"),
                medicalTerms := asArr (getField parsed "medicalTerms") }) ∧
    (∀ (jp : String → Option Json) (now : Nat) (response : String) (format : CardType),
        jp response = some Json.null →
        AIServiceOpenAI.parseAIResponse jp now response format = .error .failed) := by
  refine ⟨?_, ?_, ?_⟩
  · intro jp now response format r h
    unfold AIServiceHFMulti.parseAIResponse at h
    repeat' split at h
    all_goals try exact Except.noConfusion h
    dsimp only at h
    split at h
    · exact Except.noConfusion h
    · rename_i hlen
      injection h with h2
      intro hc
      apply hlen
      rw [← h2] at hc
      simpa using congrArg List.length hc
  · intro jp now response format parsed hjp hnn hcards
    unfold AIServiceOpenAI.parseAIResponse
    rcases hcards with h | h <;>
      simp [hjp, hnn, h, jsOrEmptyList, AIServiceOpenAI.mapCards]
  · intro jp now response format hjp
    unfold AIServiceOpenAI.parseAIResponse
    rw [hjp]
    dsimp only
    rw [if_pos rfl]

theorem c2_zero_cards_witness :
    ({ cards := [{ id := cardId 0 0, front := .str "Q", back := .str "A",
                   type := .basic, tags := [], context := none,
                   difficulty := .str "medium" }],
       concepts := [], summary := .str "No summary available",
       medicalTerms := [] } : ExtractionResult).cards ≠ []
    ∧ AIServiceOpenAI.parseAIResponse (fun _ => some (.obj [("cards", .arr [])])) 3 "reply"
        .basic =
      .ok { cards := [], concepts := [], summary := .str "No summary available",
            medicalTerms := [] }
    ∧ AIServiceOpenAI.parseAIResponse (fun _ => some .null) 3 "null" .basic =
      .error .failed :=
  ⟨c2_zero_cards.1
      (fun _ => some (.obj [("cards",
        .arr [.obj [("front", .str "Q"), ("back", .str "A")]])]))
      0 "\x7b\x7d" .basic _ (by rfl),
   c2_zero_cards.2.1 (fun _ => some (.obj [("cards", .arr [])])) 3 "reply" .basic _ rfl
     (by decide) (Or.inr rfl),
   c2_zero_cards.2.2 (fun _ => some .null) 3 "null" .basic rfl⟩

/-- C2 counterexample: in the chunked OpenAI variant a run whose upstream
reply parses to `\x7b"cards": []\x7d` resolves with the zero-card result of the
upstream path after one call — the Fallback Extractor, which would have
produced a card from this text, is not invoked. -/
theorem c2_zero_cards_counterexample :
    AIServiceOpenAI.generateFlashcards (fun _ => .ok "body") (fun _ => 0)
        (fun _ => some (.obj [("cards", .arr [])])) 0 (some "key")
        "Retina: light-sensitive nerve tissue at the back of the eye." .basic =
      ({ cards := [], concepts := [], summary := .str "No summary available",
         medicalTerms := [] }, 1) ∧
    (AIServiceOpenAI.fallbackExtraction
        "Retina: light-sensitive nerve tissue at the back of the eye." .basic 0).cards.length
      = 1 :=
  ⟨rfl, rfl⟩

theorem mem_jsSetAdd {α : Type} [DecidableEq α] {y x : α} {l : List α} :
    y ∈ jsSetAdd l x ↔ y ∈ l ∨ y = x := by
  unfold jsSetAdd
  split <;> rename_i hx
  · constructor
    · exact Or.inl
    · rintro (h | rfl)
      · exact h
      · exact hx
  · simp

theorem fallbackStep_terms_subset (now : Nat) (format : CardType)
    (st : AIServiceOpenAI.FallbackState) (p : Nat × String)
    (h : ∀ t ∈ st.terms, t ∈ st.concepts) :
    ∀ t ∈ (AIServiceOpenAI.fallbackStep now format st p).terms,
      t ∈ (AIServiceOpenAI.fallbackStep now format st p).concepts := by
  obtain ⟨index, line⟩ := p
  rw [AIServiceOpenAI.fallbackStep]
  by_cases h1 : line.length < 15 ∨ st.cards.length ≥ 40
  · rw [if_pos h1]; exact h
  rw [if_neg h1]
  by_cases h2 : AIServiceOpenAI.headerTest line = true ∧ line.length < 80 ∧
      ¬ jsIncludes line "." = true
  · rw [if_pos h2]; exact h
  rw [if_neg h2]
  cases hdm : defMatch upperAZAO line with
  | none => exact h
  | some td =>
    obtain ⟨term, definition⟩ := td
    dsimp only
    by_cases h3 : (jsTrim definition).length > 10 ∧ (jsTrim definition).length < 500
    · rw [if_pos h3]
      intro t ht
      simp only at ht ⊢
      rw [mem_jsSetAdd]
      by_cases h4 : AIServiceOpenAI.isMedicalTerm (jsTrim term) = true
      · rw [if_pos h4] at ht
        rw [mem_jsSetAdd] at ht
        rcases ht with ht | rfl
        · exact Or.inl (h t ht)
        · exact Or.inr rfl
      · rw [if_neg h4] at ht
        exact Or.inl (h t ht)
    · rw [if_neg h3]
      exact h

theorem fallbackStepHF_terms_subset (now : Nat) (format : CardType)
    (st : AIServiceHF.FallbackState) (p : Nat × String)
    (h : ∀ t ∈ st.terms, t ∈ st.concepts) :
    ∀ t ∈ (AIServiceHF.fallbackStep now format st p).terms,
      t ∈ (AIServiceHF.fallbackStep now format st p).concepts := by
  obtain ⟨index, line⟩ := p
  rw [AIServiceHF.fallbackStep]
  by_cases h1 : line.length < 15 ∨ st.cards.length ≥ 25
  · rw [if_pos h1]; exact h
  rw [if_neg h1]
  cases hdm : defMatch upperAZ line with
  | none => exact h
  | some td =>
    obtain ⟨term, definition⟩ := td
    dsimp only
    by_cases h3 : (jsTrim definition).length > 10
    · rw [if_pos h3]
      intro t ht
      simp only at ht ⊢
      rw [mem_jsSetAdd]
      by_cases h4 : AIServiceHF.isMedicalTerm (jsTrim term) = true
      · rw [if_pos h4] at ht
        rw [mem_jsSetAdd] at ht
        rcases ht with ht | rfl
        · exact Or.inl (h t ht)
        · exact Or.inr rfl
      · rw [if_neg h4] at ht
        exact Or.inl (h t ht)
    · rw [if_neg h3]
      exact h

theorem foldl_terms_subset (now : Nat) (format : CardType) :
    ∀ (ps : List (Nat × String)) (st : AIServiceOpenAI.FallbackState),
      (∀ t ∈ st.terms, t ∈ st.concepts) →
      ∀ t ∈ (ps.foldl (fun st p => AIServiceOpenAI.fallbackStep now format st p) st).terms,
        t ∈ (ps.foldl (fun st p => AIServiceOpenAI.fallbackStep now format st p) st).concepts := by
  intro ps
  induction ps with
  | nil => intro st h; simpa using h
  | cons p ps ih =>
    intro st h
    exact ih _ (fallbackStep_terms_subset now format st p h)

theorem foldlHF_terms_subset (now : Nat) (format : CardType) :
    ∀ (ps : List (Nat × String)) (st : AIServiceHF.FallbackState),
      (∀ t ∈ st.terms, t ∈ st.concepts) →
      ∀ t ∈ (ps.foldl (fun st p => AIServiceHF.fallbackStep now format st p) st).terms,
        t ∈ (ps.foldl (fun st p => AIServiceHF.fallbackStep now format st p) st).concepts := by
  intro ps
  induction ps with
  | nil => intro st h; simpa using h
  | cons p ps ih =>
    intro st h
    exact ih _ (fallbackStepHF_terms_subset now format st p h)

/-- C8 (amended): in the Fallback Extractor of either variant, every
published medical term is (the `Json.str` of) a concept accumulated by the
line loop; the subset relation can only be broken by the final caps (20/15
concepts against 15/10 terms).  On the upstream parse path no relation is
enforced at all: `concepts` and `medicalTerms` are copied through from the
reply independently. -/
theorem c8_terms_from_concepts (text : String) (format : CardType) (now : Nat) :
    (∀ x ∈ (AIServiceOpenAI.fallbackExtraction text format now).medicalTerms,
      ∃ s : String, x = .str s ∧ s ∈ (AIServiceOpenAI.fallbackAccum text format now).concepts) ∧
    (∀ x ∈ (AIServiceHF.fallbackExtraction text format now).medicalTerms,
      ∃ s : String, x = .str s ∧ s ∈ (AIServiceHF.fallbackAccum text format now).concepts) := by
  constructor
  · intro x hx
    unfold AIServiceOpenAI.fallbackExtraction at hx
    dsimp only at hx
    rw [List.mem_map] at hx
    obtain ⟨s, hs, rfl⟩ := hx
    refine ⟨s, rfl, ?_⟩
    have hs' : s ∈ (AIServiceOpenAI.fallbackAccum text format now).terms :=
      (List.take_sublist _ _).subset hs
    exact foldl_terms_subset now format _ _ (by simp) s hs'
  · intro x hx
    unfold AIServiceHF.fallbackExtraction at hx
    dsimp only at hx
    rw [List.mem_map] at hx
    obtain ⟨s, hs, rfl⟩ := hx
    refine ⟨s, rfl, ?_⟩
    have hs' : s ∈ (AIServiceHF.fallbackAccum text format now).terms :=
      (List.take_sublist _ _).subset hs
    exact foldlHF_terms_subset now format _ _ (by simp) s hs'

theorem c8_terms_from_concepts_witness :
    ∃ s : String, Json.str "Cornea" = .str s ∧
      s ∈ (AIServiceOpenAI.fallbackAccum
        "Cornea: the transparent dome covering the front of the eye." .basic 0).concepts :=
  (c8_terms_from_concepts
      "Cornea: the transparent dome covering the front of the eye." .basic 0).1
    (.str "Cornea") (by decide)

/-- C8 counterexample: on the upstream path the reply's `medicalTerms` are
copied through unchecked, so a pipeline run can resolve with a medical term
that is not among its concepts. -/
theorem c8_terms_subset_counterexample :
    (Json.str "floaters") ∈
      (AIServiceOpenAI.generateFlashcards (fun _ => .ok "body") (fun _ => 0)
        (fun _ => some (.obj [("cards", .arr [.obj [("front", .str "Q"), ("back", .str "A")]]),
          ("concepts", .arr []), ("medicalTerms", .arr [.str "floaters"])])) 0 (some "key")
        "Sclera: the white outer layer of the eyeball." .basic).1.medicalTerms ∧
    (Json.str "floaters") ∉
      (AIServiceOpenAI.generateFlashcards (fun _ => .ok "body") (fun _ => 0)
        (fun _ => some (.obj [("cards", .arr [.obj [("front", .str "Q"), ("back", .str "A")]]),
          ("concepts", .arr []), ("medicalTerms", .arr [.str "floaters"])])) 0 (some "key")
        "Sclera: the white outer layer of the eyeball." .basic).1.concepts := by
  constructor
  · decide
  · decide

theorem charSlices_ne_nil {l : List Char} (h : l ≠ []) :
    AIServiceOpenAI.charSlices l ≠ [] := by
  cases l with
  | nil => exact absurd rfl h
  | cons c cs => simp [AIServiceOpenAI.charSlices, AIServiceOpenAI.charSlicesGo]

theorem stringNeEmpty_data {text : String} (h : text ≠ "") : text.data ≠ [] := by
  intro hc
  apply h
  cases text with
  | mk d =>
    have hd : d = [] := hc
    subst hd
    rfl

theorem stringLengthZero {s : String} (h : s.length = 0) : s = "" := by
  cases s with
  | mk d =>
    cases d with
    | nil => rfl
    | cons a b => simp [String.length] at h

theorem intelligentChunk_ne_nil (text : String) (h : text ≠ "") :
    AIServiceOpenAI.intelligentChunk text ≠ [] := by
  unfold AIServiceOpenAI.intelligentChunk
  split
  · simp
  · dsimp only
    split
    · exact charSlices_ne_nil (stringNeEmpty_data h)
    · split
      · exact charSlices_ne_nil (stringNeEmpty_data h)
      · simp
    · simp_all

theorem pipeline_first_call_error (resp : Nat → AIServiceOpenAI.FetchOutcome)
    (jitter : Nat → Nat) (jp : String → Option Json) (now : Nat) (text : String)
    (format : CardType) (e : AIServiceOpenAI.CallError) (n : Nat) (ds : List Nat)
    (hne : AIServiceOpenAI.intelligentChunk text ≠ [])
    (h0 : AIServiceOpenAI.callOpenAI resp jitter 0 = (.error e, n, ds)) :
    AIServiceOpenAI.pipeline resp jitter jp now text format = (.error (.call e), n) := by
  unfold AIServiceOpenAI.pipeline
  cases hc : AIServiceOpenAI.intelligentChunk text with
  | nil => exact absurd hc hne
  | cons c rest =>
    cases rest with
    | nil =>
      dsimp only
      rw [h0]
    | cons c2 rest2 =>
      dsimp only
      rw [AIServiceOpenAI.runChunks, h0]
      simp

theorem callOpenAI_first_unauthorized (resp : Nat → AIServiceOpenAI.FetchOutcome)
    (jitter : Nat → Nat) (h401 : resp 0 = .status 401) :
    AIServiceOpenAI.callOpenAI resp jitter 0 = (.error .unauthorized, 1, []) := by
  simp [AIServiceOpenAI.callOpenAI, AIServiceOpenAI.callLoop, AIServiceOpenAI.MAX_RETRIES, h401]

theorem callOpenAI_first_thrown (resp : Nat → AIServiceOpenAI.FetchOutcome)
    (jitter : Nat → Nat) (hthrow : resp 0 = .thrown) :
    AIServiceOpenAI.callOpenAI resp jitter 0 = (.error .transportError, 1, []) := by
  simp [AIServiceOpenAI.callOpenAI, AIServiceOpenAI.callLoop, AIServiceOpenAI.MAX_RETRIES, hthrow]

theorem jsTrim_ne_empty_text {text : String} (h : jsTrim text ≠ "") : text ≠ "" := by
  intro hc
  subst hc
  exact h rfl

/-- C1 (amended): when the first upstream call returns Unauthorized (HTTP
401), `callOpenAI` throws immediately, so the run makes exactly one upstream
call and no retries — but `generateFlashcards` catches that error in its
top-level `try`/`catch` and resolves with the Fallback Extractor's result
over the original text instead of surfacing the Unauthorized condition to
the run caller. -/
theorem c1_unauthorized_single_call (resp : Nat → AIServiceOpenAI.FetchOutcome)
    (jitter : Nat → Nat) (jp : String → Option Json) (now : Nat) (key : String)
    (text : String) (format : CardType)
    (h401 : resp 0 = .status 401) (hne : jsTrim text ≠ "") :
    AIServiceOpenAI.generateFlashcards resp jitter jp now (some key) text format =
      (AIServiceOpenAI.fallbackExtraction text format now, 1) := by
  unfold AIServiceOpenAI.generateFlashcards
  rw [if_neg (by
    rintro (hc | hc)
    · exact jsTrim_ne_empty_text hne hc
    · exact hne (stringLengthZero hc))]
  dsimp only
  rw [pipeline_first_call_error resp jitter jp now text format .unauthorized 1 []
    (intelligentChunk_ne_nil text (jsTrim_ne_empty_text hne))
    (callOpenAI_first_unauthorized resp jitter h401)]

theorem c1_unauthorized_single_call_witness :
    AIServiceOpenAI.generateFlashcards (fun _ => .status 401) (fun _ => 0) (fun _ => none) 5
      (some "key") "Glaucoma: optic nerve damage from high eye pressure." .basic =
      (AIServiceOpenAI.fallbackExtraction
        "Glaucoma: optic nerve damage from high eye pressure." .basic 5, 1) :=
  c1_unauthorized_single_call _ _ _ _ _ _ _ rfl (by decide)

/-- C1 counterexample: a run whose only upstream call fails with 401 does
not surface a terminal failure: it resolves with the Fallback Extractor's
substituted result, which here contains a usable card. -/
theorem c1_unauthorized_counterexample :
    (AIServiceOpenAI.generateFlashcards (fun _ => .status 401) (fun _ => 0) (fun _ => none) 0
        (some "key") "Myopia: blurry vision for distant objects." .basic).1 =
      AIServiceOpenAI.fallbackExtraction "Myopia: blurry vision for distant objects." .basic 0 ∧
    (AIServiceOpenAI.fallbackExtraction
        "Myopia: blurry vision for distant objects." .basic 0).cards.length = 1 ∧
    (AIServiceOpenAI.generateFlashcards (fun _ => .status 401) (fun _ => 0) (fun _ => none) 0
        (some "key") "Myopia: blurry vision for distant objects." .basic).2 = 1 :=
  ⟨rfl, rfl, rfl⟩

/-- C10: with a configured key and non-blank text, `generateFlashcards`
always resolves with an `ExtractionResult`: either the chunk pipeline's
successful value, or — whenever anything inside the pipeline throws (any
HTTP status including 401, any network exception, any parse failure) — the
Fallback Extractor's result over the entire original text.  In particular a
network exception on the first call yields the fallback result after
exactly one upstream call. -/
theorem c10_never_rejects (resp : Nat → AIServiceOpenAI.FetchOutcome)
    (jitter : Nat → Nat) (jp : String → Option Json) (now : Nat) (key : String)
    (text : String) (format : CardType) (hne : jsTrim text ≠ "") :
    ((∃ r n, AIServiceOpenAI.pipeline resp jitter jp now text format = (.ok r, n) ∧
        AIServiceOpenAI.generateFlashcards resp jitter jp now (some key) text format = (r, n)) ∨
     (∃ e n, AIServiceOpenAI.pipeline resp jitter jp now text format = (.error e, n) ∧
        AIServiceOpenAI.generateFlashcards resp jitter jp now (some key) text format =
          (AIServiceOpenAI.fallbackExtraction text format now, n))) ∧
    (resp 0 = .thrown →
      AIServiceOpenAI.generateFlashcards resp jitter jp now (some key) text format =
        (AIServiceOpenAI.fallbackExtraction text format now, 1)) := by
  have hguard : ¬ (text = "" ∨ (jsTrim text).length = 0) := by
    rintro (hc | hc)
    · exact jsTrim_ne_empty_text hne hc
    · exact hne (stringLengthZero hc)
  constructor
  · unfold AIServiceOpenAI.generateFlashcards
    rw [if_neg hguard]
    dsimp only
    cases hp : AIServiceOpenAI.pipeline resp jitter jp now text format with
    | mk res n =>
      cases res with
      | ok r => exact Or.inl ⟨r, n, rfl, rfl⟩
      | error e => exact Or.inr ⟨e, n, rfl, rfl⟩
  · intro hthrow
    unfold AIServiceOpenAI.generateFlashcards
    rw [if_neg hguard]
    dsimp only
    rw [pipeline_first_call_error resp jitter jp now text format .transportError 1 []
      (intelligentChunk_ne_nil text (jsTrim_ne_empty_text hne))
      (callOpenAI_first_thrown resp jitter hthrow)]

theorem c10_never_rejects_witness :
    AIServiceOpenAI.generateFlashcards (fun _ => .thrown) (fun _ => 0) (fun _ => none) 0
      (some "key") "Cataract: clouding of the natural lens of the eye." .basic =
      (AIServiceOpenAI.fallbackExtraction
        "Cataract: clouding of the natural lens of the eye." .basic 0, 1) :=
  (c10_never_rejects (fun _ => .thrown) (fun _ => 0) (fun _ => none) 0 "key"
    "Cataract: clouding of the natural lens of the eye." .basic (by decide)).2 rfl

theorem toRawCard_id (format : CardType) (now idx : Nat) (j : Json) (c : FlashCard)
    (h : AIServiceOpenAI.toRawCard format now idx j = .ok c) : c.id = cardId now idx := by
  unfold AIServiceOpenAI.toRawCard at h
  split at h
  · exact Except.noConfusion h
  · injection h with h2
    rw [← h2]

theorem toRawCard_difficulty (format : CardType) (now idx : Nat) (j : Json) (c : FlashCard)
    (h : AIServiceOpenAI.toRawCard format now idx j = .ok c) :
    c.difficulty = jsOr (getField j "difficulty") (.str "medium") := by
  unfold AIServiceOpenAI.toRawCard at h
  split at h
  · exact Except.noConfusion h
  · injection h with h2
    rw [← h2]

theorem jsTruthy_jsOr_medium (v : Option Json) :
    jsTruthy (jsOr v (.str "medium")) = true := by
  unfold jsOr
  cases v with
  | none => decide
  | some x =>
    dsimp only
    by_cases hx : jsTruthy x = true
    · rw [if_pos hx]; exact hx
    · rw [if_neg hx]; decide

theorem mapCards_ids (format : CardType) (now : Nat) :
    ∀ (l : List Json) (k : Nat) (cs : List FlashCard),
      AIServiceOpenAI.mapCards format now l k = .ok cs →
      cs.map (·.id) = (List.range' k l.length).map (cardId now) := by
  intro l
  induction l with
  | nil =>
    intro k cs h
    unfold AIServiceOpenAI.mapCards at h
    injection h with h2
    rw [← h2]
    rfl
  | cons j rest ih =>
    intro k cs h
    unfold AIServiceOpenAI.mapCards at h
    cases htr : AIServiceOpenAI.toRawCard format now k j with
    | error e => rw [htr] at h; exact Except.noConfusion h
    | ok c =>
      rw [htr] at h
      cases hmc : AIServiceOpenAI.mapCards format now rest (k + 1) with
      | error e => rw [hmc] at h; exact Except.noConfusion h
      | ok cs' =>
        rw [hmc] at h
        injection h with h2
        rw [← h2]
        simp only [List.length_cons, List.range'_succ, List.map_cons, List.map_map]
        rw [toRawCard_id format now k j c htr]
        have := ih (k + 1) cs' hmc
        simp only [List.map_map] at this
        rw [this]

theorem mapCards_mem (format : CardType) (now : Nat) :
    ∀ (l : List Json) (k : Nat) (cs : List FlashCard),
      AIServiceOpenAI.mapCards format now l k = .ok cs →
      ∀ c ∈ cs, ∃ j ∈ l, ∃ idx, AIServiceOpenAI.toRawCard format now idx j = .ok c := by
  intro l
  induction l with
  | nil =>
    intro k cs h
    unfold AIServiceOpenAI.mapCards at h
    injection h with h2
    rw [← h2]
    intro c hc
    exact absurd hc (List.not_mem_nil c)
  | cons j rest ih =>
    intro k cs h
    unfold AIServiceOpenAI.mapCards at h
    cases htr : AIServiceOpenAI.toRawCard format now k j with
    | error e => rw [htr] at h; exact Except.noConfusion h
    | ok c =>
      rw [htr] at h
      cases hmc : AIServiceOpenAI.mapCards format now rest (k + 1) with
      | error e => rw [hmc] at h; exact Except.noConfusion h
      | ok cs' =>
        rw [hmc] at h
        injection h with h2
        rw [← h2]
        intro c2 hc2
        rcases List.mem_cons.mp hc2 with rfl | hmem
        · exact ⟨j, List.mem_cons_self j rest, k, htr⟩
        · obtain ⟨j2, hj2, idx, hidx⟩ := ih (k + 1) cs' hmc c2 hmem
          exact ⟨j2, List.mem_cons_of_mem j hj2, idx, hidx⟩

/-- C5 (amended): each candidate gets a fresh id unique within the parse
(`card-now-index`, pairwise distinct), tags are coerced to a list by type,
and any candidate whose coerced `front` or `back` is falsy — in particular
`front = ""` — is discarded without error, so every emitted card has truthy
`front` and `back`.  The difficulty field defaults to `"medium"` exactly
when the candidate's field is absent or falsy; a present truthy value — even
one outside the `easy`/`medium`/`hard` enum — is passed through unchanged
(so difficulty is always truthy but is NOT coerced to the enum). -/
theorem c5_validator (jp : String → Option Json) (now : Nat) (response : String)
    (format : CardType) (r : ExtractionResult)
    (h : AIServiceOpenAI.parseAIResponse jp now response format = .ok r) :
    (∀ c ∈ r.cards, jsTruthy c.front = true ∧ jsTruthy c.back = true) ∧
    (r.cards.map (·.id)).Nodup ∧
    (∀ c ∈ r.cards, jsTruthy c.difficulty = true) ∧
    (∀ c ∈ r.cards, c.difficulty = .str "medium" ∨
      ∃ (parsed : Json) (rawCards : List Json) (raw : Json),
        jp response = some parsed ∧
        jsOrEmptyList (getField parsed "cards") = .ok rawCards ∧ raw ∈ rawCards ∧
        getField raw "difficulty" = some c.difficulty) := by
  unfold AIServiceOpenAI.parseAIResponse at h
  cases hjp : jp response with
  | none => rw [hjp] at h; exact Except.noConfusion h
  | some parsed =>
    rw [hjp] at h
    dsimp only at h
    by_cases hnull : parsed = Json.null
    case pos => rw [if_pos hnull] at h; exact Except.noConfusion h
    rw [if_neg hnull] at h
    cases hol : jsOrEmptyList (getField parsed "cards") with
    | error e => rw [hol] at h; exact Except.noConfusion h
    | ok rawCards =>
      rw [hol] at h
      dsimp only at h
      cases hmc : AIServiceOpenAI.mapCards format now rawCards 0 with
      | error e => rw [hmc] at h; exact Except.noConfusion h
      | ok mapped =>
        rw [hmc] at h
        dsimp only at h
        injection h with h2
        subst h2
        refine ⟨?_, ?_, ?_, ?_⟩
        · intro c hc
          have := List.of_mem_filter hc
          simpa using this
        · have hids := mapCards_ids format now rawCards 0 mapped hmc
          have hnd : (mapped.map (·.id)).Nodup := by
            rw [hids]
            exact List.Nodup.map (fun a b hab => cardId_inj now hab)
              (List.nodup_range' _ _)
          exact hnd.sublist ((List.filter_sublist mapped).map (·.id))
        · intro c hc
          have hc' := List.mem_of_mem_filter hc
          obtain ⟨j, _, idx, hok⟩ := mapCards_mem format now rawCards 0 mapped hmc c hc'
          rw [toRawCard_difficulty format now idx j c hok]
          exact jsTruthy_jsOr_medium _
        · intro c hc
          have hc' := List.mem_of_mem_filter hc
          obtain ⟨j, hjmem, idx, hok⟩ := mapCards_mem format now rawCards 0 mapped hmc c hc'
          have hd := toRawCard_difficulty format now idx j c hok
          unfold jsOr at hd
          cases hgf : getField j "difficulty" with
          | none => rw [hgf] at hd; exact Or.inl hd
          | some x =>
            rw [hgf] at hd
            dsimp only at hd
            by_cases hx : jsTruthy x = true
            · rw [if_pos hx] at hd
              exact Or.inr ⟨parsed, rawCards, j, rfl, hol, hjmem, by rw [hgf, hd]⟩
            · rw [if_neg hx] at hd
              exact Or.inl hd

theorem c5_validator_witness :
    (((AIServiceOpenAI.parseAIResponse
        (fun _ => some (.obj [("cards", .arr
          [.obj [("front", .str "Q1"), ("back", .str "A1")],
           .obj [("front", .str ""), ("back", .str "A2")],
           .obj [("front", .str "Q3"), ("back", .str "A3")]])])) 7 "reply" .basic)) =
      .ok { cards :=
              [{ id := cardId 7 0, front := .str "Q1", back := .str "A1", type := .basic,
                 tags := [], context := none, difficulty := .str "medium" },
               { id := cardId 7 2, front := .str "Q3", back := .str "A3", type := .basic,
                 tags := [], context := none, difficulty := .str "medium" }],
            concepts := [], summary := .str "No summary available", medicalTerms := [] }) ∧
    ([cardId 7 0, cardId 7 2] : List String).Nodup :=
  ⟨rfl, by
    have := (c5_validator
      (fun _ => some (.obj [("cards", .arr
        [.obj [("front", .str "Q1"), ("back", .str "A1")],
         .obj [("front", .str ""), ("back", .str "A2")],
         .obj [("front", .str "Q3"), ("back", .str "A3")]])])) 7 "reply" .basic
      { cards :=
          [{ id := cardId 7 0, front := .str "Q1", back := .str "A1", type := .basic,
             tags := [], context := none, difficulty := .str "medium" },
           { id := cardId 7 2, front := .str "Q3", back := .str "A3", type := .basic,
             tags := [], context := none, difficulty := .str "medium" }],
        concepts := [], summary := .str "No summary available", medicalTerms := [] }
      rfl).2.1
    simpa using this⟩

/-- C5 counterexample: a present difficulty value outside the enum is NOT
coerced to `medium` — the invalid string `"impossible"` is passed through to
the emitted card. -/
theorem c5_validator_counterexample :
    AIServiceOpenAI.parseAIResponse
        (fun _ => some (.obj [("cards", .arr [.obj [("front", .str "Q"), ("back", .str "A"),
          ("difficulty", .str "impossible")]])])) 0 "reply" .basic =
      .ok { cards := [{ id := cardId 0 0, front := .str "Q", back := .str "A", type := .basic,
                        tags := [], context := none, difficulty := .str "impossible" }],
            concepts := [], summary := .str "No summary available", medicalTerms := [] } ∧
    (Json.str "impossible") ≠ (Json.str "medium") :=
  ⟨rfl, by decide⟩

theorem dedupeAux_spec : ∀ (l : List FlashCard) (seen : List Json),
    (AIServiceOpenAI.dedupeByFrontAux seen l).Sublist l ∧
    ((AIServiceOpenAI.dedupeByFrontAux seen l).map (·.front)).Nodup ∧
    (∀ c ∈ AIServiceOpenAI.dedupeByFrontAux seen l, c.front ∉ seen) ∧
    (∀ c ∈ l, c.front ∉ seen →
      ∃ c2 ∈ AIServiceOpenAI.dedupeByFrontAux seen l, c2.front = c.front) ∧
    (∀ c2 ∈ AIServiceOpenAI.dedupeByFrontAux seen l,
      l.find? (fun x => decide (x.front = c2.front)) = some c2) := by
  intro l
  induction l with
  | nil =>
    intro seen
    simp [AIServiceOpenAI.dedupeByFrontAux]
  | cons c rest ih =>
    intro seen
    by_cases hmem : c.front ∈ seen
    · have hout : AIServiceOpenAI.dedupeByFrontAux seen (c :: rest) =
          AIServiceOpenAI.dedupeByFrontAux (c.front :: seen) rest := by
        rw [AIServiceOpenAI.dedupeByFrontAux, if_pos hmem]
      obtain ⟨ihsub, ihnd, ihseen, ihcomp, ihfind⟩ := ih (c.front :: seen)
      rw [hout]
      refine ⟨ihsub.trans (List.sublist_cons_self c rest), ihnd, ?_, ?_, ?_⟩
      · intro c2 hc2
        have := ihseen c2 hc2
        intro hc
        exact this (List.mem_cons_of_mem _ hc)
      · intro c1 hc1 hns
        rcases List.mem_cons.mp hc1 with rfl | hc1r
        · exact absurd hmem hns
        · have hne : c1.front ∉ (c.front :: seen) := by
            intro hc
            rcases List.mem_cons.mp hc with he | he
            · rw [he] at hns; exact hns hmem
            · exact hns he
          exact ihcomp c1 hc1r hne
      · intro c2 hc2
        have hne : ¬ (c.front = c2.front) := by
          intro he
          exact ihseen c2 hc2 (he ▸ List.mem_cons_self _ _)
        rw [List.find?_cons_of_neg _ (by simpa using hne)]
        exact ihfind c2 hc2
    · have hout : AIServiceOpenAI.dedupeByFrontAux seen (c :: rest) =
          c :: AIServiceOpenAI.dedupeByFrontAux (c.front :: seen) rest := by
        rw [AIServiceOpenAI.dedupeByFrontAux, if_neg hmem]
      obtain ⟨ihsub, ihnd, ihseen, ihcomp, ihfind⟩ := ih (c.front :: seen)
      rw [hout]
      refine ⟨ihsub.cons₂ c, ?_, ?_, ?_, ?_⟩
      · rw [List.map_cons, List.nodup_cons]
        refine ⟨?_, ihnd⟩
        intro hc
        rw [List.mem_map] at hc
        obtain ⟨c2, hc2, he⟩ := hc
        exact ihseen c2 hc2 (he ▸ List.mem_cons_self _ _)
      · intro c2 hc2
        rcases List.mem_cons.mp hc2 with rfl | hc2r
        · exact hmem
        · intro hc
          exact ihseen c2 hc2r (List.mem_cons_of_mem _ hc)
      · intro c1 hc1 hns
        rcases List.mem_cons.mp hc1 with rfl | hc1r
        · exact ⟨c1, List.mem_cons_self _ _, rfl⟩
        · by_cases he : c1.front = c.front
          · exact ⟨c, List.mem_cons_self _ _, he.symm⟩
          · have hne : c1.front ∉ (c.front :: seen) := by
              intro hc
              rcases List.mem_cons.mp hc with h2 | h2
              · exact he h2
              · exact hns h2
            obtain ⟨c2, hc2, he2⟩ := ihcomp c1 hc1r hne
            exact ⟨c2, List.mem_cons_of_mem _ hc2, he2⟩
      · intro c2 hc2
        rcases List.mem_cons.mp hc2 with rfl | hc2r
        · rw [List.find?_cons_of_pos]
          simp
        · have hne : ¬ (c.front = c2.front) := by
            intro he
            exact ihseen c2 hc2r (he ▸ List.mem_cons_self _ _)
          rw [List.find?_cons_of_neg _ (by simpa using hne)]
          exact ihfind c2 hc2r

theorem dedupeAux_eq_self : ∀ (l : List FlashCard) (seen : List Json),
    ((l.map (·.front)).Nodup) → (∀ c ∈ l, c.front ∉ seen) →
    AIServiceOpenAI.dedupeByFrontAux seen l = l := by
  intro l
  induction l with
  | nil => intro seen _ _; rfl
  | cons c rest ih =>
    intro seen hnd hns
    rw [AIServiceOpenAI.dedupeByFrontAux, if_neg (hns c (List.mem_cons_self _ _))]
    simp only [List.map_cons, List.nodup_cons, List.mem_map] at hnd
    obtain ⟨hno, hnd2⟩ := hnd
    congr 1
    apply ih _ hnd2
    intro c2 hc2 hc
    rcases List.mem_cons.mp hc with he | he
    · exact hno ⟨c2, hc2, he⟩
    · exact hns c2 (List.mem_cons_of_mem _ hc2) he

theorem combineFold_spec (rs : List ExtractionResult) :
    ∀ (a : List FlashCard) (b c d : List Json),
      rs.foldl (fun (acc : List FlashCard × List Json × List Json × List Json) r =>
        (acc.1 ++ r.cards,
         jsSetAddAll acc.2.1 r.concepts,
         jsSetAddAll acc.2.2.1 r.medicalTerms,
         if jsTruthy r.summary then acc.2.2.2 ++ [r.summary] else acc.2.2.2)) (a, b, c, d) =
      (rs.foldl (fun x r => x ++ r.cards) a,
       rs.foldl (fun x r => jsSetAddAll x r.concepts) b,
       rs.foldl (fun x r => jsSetAddAll x r.medicalTerms) c,
       rs.foldl (fun x r => if jsTruthy r.summary then x ++ [r.summary] else x) d) := by
  induction rs with
  | nil => intros; rfl
  | cons r rs ih =>
    intro a b c d
    simp only [List.foldl_cons]
    exact ih _ _ _ _

theorem foldl_append_cards (rs : List ExtractionResult) :
    ∀ a, rs.foldl (fun x r => x ++ r.cards) a = a ++ (rs.map (·.cards)).flatten := by
  induction rs with
  | nil => intro a; simp
  | cons r rs ih =>
    intro a
    simp only [List.foldl_cons, List.map_cons, List.flatten_cons, ih, List.append_assoc]

theorem mem_jsSetAddAll {α : Type} [DecidableEq α] :
    ∀ (xs l : List α) (y : α), y ∈ jsSetAddAll l xs ↔ y ∈ l ∨ y ∈ xs := by
  intro xs
  induction xs with
  | nil => intro l y; simp [jsSetAddAll]
  | cons z zs ih =>
    intro l y
    unfold jsSetAddAll at ih ⊢
    simp only [List.foldl_cons]
    rw [ih, mem_jsSetAdd]
    simp only [List.mem_cons]
    tauto

theorem mem_foldl_setAddAll (f : ExtractionResult → List Json) (rs : List ExtractionResult) :
    ∀ (b : List Json) (y : Json),
      y ∈ rs.foldl (fun x r => jsSetAddAll x (f r)) b ↔ y ∈ b ∨ ∃ r ∈ rs, y ∈ f r := by
  induction rs with
  | nil => intro b y; simp
  | cons r rs ih =>
    intro b y
    simp only [List.foldl_cons]
    rw [ih]
    rw [mem_jsSetAddAll (f r) b y]
    constructor
    · rintro ((h | h) | h)
      · exact Or.inl h
      · exact Or.inr ⟨r, List.mem_cons_self _ _, h⟩
      · obtain ⟨r2, hr2, hy⟩ := h
        exact Or.inr ⟨r2, List.mem_cons_of_mem _ hr2, hy⟩
    · rintro (h | h)
      · exact Or.inl (Or.inl h)
      · obtain ⟨r2, hr2, hy⟩ := h
        rcases List.mem_cons.mp hr2 with rfl | h3
        · exact Or.inl (Or.inr hy)
        · exact Or.inr ⟨r2, h3, hy⟩

theorem nodup_jsSetAdd {α : Type} [DecidableEq α] {l : List α} (h : l.Nodup) (x : α) :
    (jsSetAdd l x).Nodup := by
  unfold jsSetAdd
  split
  · exact h
  · rename_i hx
    simpa [List.nodup_append] using ⟨h, hx⟩

theorem nodup_jsSetAddAll {α : Type} [DecidableEq α] :
    ∀ (xs l : List α), l.Nodup → (jsSetAddAll l xs).Nodup := by
  intro xs
  induction xs with
  | nil => intro l h; exact h
  | cons z zs ih =>
    intro l h
    unfold jsSetAddAll at ih ⊢
    simp only [List.foldl_cons]
    exact ih _ (nodup_jsSetAdd h z)

theorem nodup_foldl_setAddAll (f : ExtractionResult → List Json) (rs : List ExtractionResult) :
    ∀ (b : List Json), b.Nodup → (rs.foldl (fun x r => jsSetAddAll x (f r)) b).Nodup := by
  induction rs with
  | nil => intro b h; simpa using h
  | cons r rs ih =>
    intro b h
    simp only [List.foldl_cons]
    exact ih _ (nodup_jsSetAddAll (f r) b h)

theorem foldl_summaries (rs : List ExtractionResult) :
    ∀ d, rs.foldl (fun x r => if jsTruthy r.summary then x ++ [r.summary] else x) d =
      d ++ (rs.filter (fun r => jsTruthy r.summary)).map (·.summary) := by
  induction rs with
  | nil => intro d; simp
  | cons r rs ih =>
    intro d
    simp only [List.foldl_cons]
    by_cases hr : jsTruthy r.summary = true
    · rw [if_pos hr, ih]
      simp [List.filter_cons, hr, List.append_assoc]
    · rw [if_neg hr, ih]
      simp [List.filter_cons, hr]

theorem combineResults_eq (rs : List ExtractionResult) :
    AIServiceOpenAI.combineResults rs =
      { cards := AIServiceOpenAI.dedupeByFront ((rs.map (·.cards)).flatten)
        concepts := rs.foldl (fun x r => jsSetAddAll x r.concepts) []
        medicalTerms := rs.foldl (fun x r => jsSetAddAll x r.medicalTerms) []
        summary :=
          if ((rs.filter (fun r => jsTruthy r.summary)).map (·.summary)).length > 0 then
            .str (String.intercalate " "
              (((rs.filter (fun r => jsTruthy r.summary)).map (·.summary)).map
                jsToDisplayString))
          else .str "Combined content from multiple sections" } := by
  unfold AIServiceOpenAI.combineResults
  rw [combineFold_spec]
  dsimp only
  rw [foldl_append_cards, foldl_summaries]
  simp

/-- C6: the Result Combiner concatenates cards preserving relative order
(the output is a sublist of the concatenation), removes duplicates by exact
front equality keeping the first occurrence (each kept card is the `find?`
result for its front, every front survives, and the kept fronts are
pairwise distinct), unions concepts and medicalTerms as insertion-ordered
duplicate-free sets, joins the truthy summaries with single spaces, and on a
singleton list whose cards already have pairwise distinct fronts returns the
same card count. -/
theorem c6_combiner (rs : List ExtractionResult) :
    ((AIServiceOpenAI.combineResults rs).cards.Sublist ((rs.map (·.cards)).flatten)) ∧
    (((AIServiceOpenAI.combineResults rs).cards.map (·.front)).Nodup) ∧
    (∀ c ∈ (rs.map (·.cards)).flatten,
      ∃ c2 ∈ (AIServiceOpenAI.combineResults rs).cards, c2.front = c.front) ∧
    (∀ c2 ∈ (AIServiceOpenAI.combineResults rs).cards,
      ((rs.map (·.cards)).flatten).find? (fun x => decide (x.front = c2.front)) = some c2) ∧
    (∀ y : Json, y ∈ (AIServiceOpenAI.combineResults rs).concepts ↔ ∃ r ∈ rs, y ∈ r.concepts) ∧
    ((AIServiceOpenAI.combineResults rs).concepts.Nodup) ∧
    (∀ y : Json,
      y ∈ (AIServiceOpenAI.combineResults rs).medicalTerms ↔ ∃ r ∈ rs, y ∈ r.medicalTerms) ∧
    ((AIServiceOpenAI.combineResults rs).medicalTerms.Nodup) ∧
    ((∃ r ∈ rs, jsTruthy r.summary = true) →
      (AIServiceOpenAI.combineResults rs).summary = .str (String.intercalate " "
        (((rs.filter (fun r => jsTruthy r.summary)).map (·.summary)).map jsToDisplayString))) ∧
    (∀ R : ExtractionResult, ((R.cards.map (·.front)).Nodup) →
      (AIServiceOpenAI.combineResults [R]).cards.length = R.cards.length) := by
  rw [combineResults_eq]
  obtain ⟨hsub, hnd, hseen, hcomp, hfind⟩ :=
    dedupeAux_spec ((rs.map (·.cards)).flatten) []
  refine ⟨hsub, hnd, ?_, hfind, ?_, ?_, ?_, ?_, ?_, ?_⟩
  · intro c hc
    exact hcomp c hc (List.not_mem_nil _)
  · intro y
    simpa using mem_foldl_setAddAll (fun r => r.concepts) rs [] y
  · exact nodup_foldl_setAddAll (fun r => r.concepts) rs [] List.nodup_nil
  · intro y
    simpa using mem_foldl_setAddAll (fun r => r.medicalTerms) rs [] y
  · exact nodup_foldl_setAddAll (fun r => r.medicalTerms) rs [] List.nodup_nil
  · rintro ⟨r, hr, htr⟩
    dsimp only
    rw [if_pos]
    have : r ∈ rs.filter (fun r => jsTruthy r.summary) := List.mem_filter.mpr ⟨hr, htr⟩
    have hne : (rs.filter (fun r => jsTruthy r.summary)).map (·.summary) ≠ [] := by
      intro hc
      rw [List.map_eq_nil_iff] at hc
      rw [hc] at this
      exact List.not_mem_nil r this
    exact List.length_pos.mpr hne
  · intro R hndR
    rw [combineResults_eq]
    dsimp only
    unfold AIServiceOpenAI.dedupeByFront
    rw [show ((([R].map (·.cards)).flatten) : List FlashCard) = R.cards by simp]
    exact congrArg List.length
      (dedupeAux_eq_self R.cards [] hndR (fun c _ => List.not_mem_nil _))

theorem c6_combiner_witness :
    (AIServiceOpenAI.combineResults
      [{ cards := [{ id := "a", front := .str "F1", back := .str "B1", type := .basic,
                     tags := [], context := none, difficulty := .str "easy" },
                   { id := "b", front := .str "F2", back := .str "B2", type := .basic,
                     tags := [], context := none, difficulty := .str "easy" }],
         concepts := [], summary := .str "s", medicalTerms := [] }]).cards.length = 2 :=
  ((c6_combiner []).2.2.2.2.2.2.2.2.2
    { cards := [{ id := "a", front := .str "F1", back := .str "B1", type := .basic,
                  tags := [], context := none, difficulty := .str "easy" },
                { id := "b", front := .str "F2", back := .str "B2", type := .basic,
                  tags := [], context := none, difficulty := .str "easy" }],
      concepts := [], summary := .str "s", medicalTerms := [] }
    (by decide)).trans rfl

theorem ssa_false_cons {c : Char} (hc : c ≠ '\n') (r acc : List Char) :
    splitSectionsAux false (c :: r) acc = splitSectionsAux false r (c :: acc) := by
  cases r with
  | nil => simp [splitSectionsAux]
  | cons d rest =>
    cases hd : decide (c = '\n') with
    | true => exact absurd (of_decide_eq_true hd) hc
    | false =>
      rw [splitSectionsAux]
      simp [hc]

theorem ssa_true_cons {c : Char} (hc : c ≠ '\n') (r acc : List Char) :
    splitSectionsAux true (c :: r) acc = splitSectionsAux false r (c :: acc) := by
  rw [splitSectionsAux]
  simp [hc]

theorem ssa_false_sep (rest acc : List Char) :
    splitSectionsAux false ('\n' :: '\n' :: rest) acc =
      acc.reverse :: splitSectionsAux true rest [] := by
  rfl

theorem ssa_false_block :
    ∀ (l : List Char), (∀ c ∈ l, c ≠ '\n') → ∀ (rest acc : List Char),
      splitSectionsAux false (l ++ '\n' :: '\n' :: rest) acc =
        (acc.reverse ++ l) :: splitSectionsAux true rest [] := by
  intro l
  induction l with
  | nil => intro _ rest acc; simpa using ssa_false_sep rest acc
  | cons c l' ih =>
    intro hl rest acc
    rw [List.cons_append, ssa_false_cons (hl c (List.mem_cons_self _ _)),
      ih (fun d hd => hl d (List.mem_cons_of_mem _ hd)) rest (c :: acc)]
    simp

theorem ssa_false_term :
    ∀ (l : List Char), (∀ c ∈ l, c ≠ '\n') → ∀ (acc : List Char),
      splitSectionsAux false l acc = [acc.reverse ++ l] := by
  intro l
  induction l with
  | nil => intro _ acc; simp [splitSectionsAux]
  | cons c l' ih =>
    intro hl acc
    rw [ssa_false_cons (hl c (List.mem_cons_self _ _)),
      ih (fun d hd => hl d (List.mem_cons_of_mem _ hd))]
    simp

theorem no_nl_replicate (n : Nat) (c : Char) (hc : c ≠ '\n') :
    ∀ d ∈ List.replicate n c, d ≠ '\n' := by
  intro d hd
  rw [List.eq_of_mem_replicate hd]
  exact hc

theorem splitSections_chunkProbeText :
    splitSections chunkProbeText =
      [String.mk (List.replicate 3000 'a'), String.mk (List.replicate 2999 'b'), "x"] := by
  have hdata : chunkProbeText.data =
      List.replicate 3000 'a' ++ '\n' :: '\n' ::
        (List.replicate 2999 'b' ++ '\n' :: '\n' :: ['x']) := by
    show (((String.mk (List.replicate 3000 'a') ++ "\n\n") ++
        String.mk (List.replicate 2999 'b')) ++ "\n\nx").data = _
    rw [String.data_append, String.data_append, String.data_append]
    show ((List.replicate 3000 'a' ++ ['\n', '\n']) ++ List.replicate 2999 'b') ++
        ['\n', '\n', 'x'] = _
    simp only [List.append_assoc]
    rfl
  have h2999 : (List.replicate 2999 'b' : List Char) = 'b' :: List.replicate 2998 'b' :=
    List.replicate_succ 'b' 2998
  unfold splitSections
  rw [hdata]
  rw [ssa_false_block _ (no_nl_replicate 3000 'a' (by decide)) _ []]
  rw [h2999, List.cons_append, ssa_true_cons (by decide)]
  rw [ssa_false_block _ (no_nl_replicate 2998 'b' (by decide)) _ ['b']]
  rw [ssa_true_cons (by decide)]
  rw [ssa_false_term [] (by intro d hd; simp at hd) ['x']]
  simp only [List.map_cons, List.map_nil, List.reverse_nil, List.nil_append,
    List.reverse_cons, List.reverse_singleton, List.append_nil, List.singleton_append]

theorem dropWhile_eq_self_of_head {p : Char → Bool} :
    ∀ (l : List Char), (∀ c, l.head? = some c → p c = false) → l.dropWhile p = l
  | [], _ => rfl
  | c :: r, h => by
    rw [List.dropWhile_cons_of_neg]
    simp [h c rfl]

theorem jsTrim_eq_self {s : String}
    (h1 : ∀ c, s.data.head? = some c → jsIsSpace c = false)
    (h2 : ∀ c, s.data.reverse.head? = some c → jsIsSpace c = false) : jsTrim s = s := by
  unfold jsTrim
  rw [dropWhile_eq_self_of_head _ h1, dropWhile_eq_self_of_head _ h2, List.reverse_reverse]

theorem jsTrim_length_le (s : String) : (jsTrim s).length ≤ s.length := by
  unfold jsTrim
  simp only [String.length_mk, List.length_reverse]
  calc ((s.data.dropWhile jsIsSpace).reverse.dropWhile jsIsSpace).length
      ≤ (s.data.dropWhile jsIsSpace).reverse.length := lengthDropWhileLe _ _
    _ = (s.data.dropWhile jsIsSpace).length := List.length_reverse _
    _ ≤ s.data.length := lengthDropWhileLe _ _
    _ = s.length := rfl

theorem charSlicesGo_bound :
    ∀ (fuel : Nat) (l : List Char), ∀ c ∈ AIServiceOpenAI.charSlicesGo fuel l,
      c.length ≤ 6000 := by
  intro fuel
  induction fuel with
  | zero =>
    intro l c hc
    cases l <;> simp [AIServiceOpenAI.charSlicesGo] at hc
  | succ fuel ih =>
    intro l c hc
    cases l with
    | nil => simp [AIServiceOpenAI.charSlicesGo] at hc
    | cons a r =>
      rw [AIServiceOpenAI.charSlicesGo] at hc
      rcases List.mem_cons.mp hc with rfl | hmem
      · simp only [String.length_mk]
        exact le_trans (List.length_take_le _ _) (by omega)
      · exact ih _ c hmem

theorem charSlices_bound (l : List Char) :
    ∀ c ∈ AIServiceOpenAI.charSlices l, c.length ≤ 6000 :=
  charSlicesGo_bound l.length l

theorem stringLengthPos {s : String} (h : s ≠ "") : 0 < s.length := by
  cases hn : s.length with
  | zero => exact absurd (stringLengthZero hn) h
  | succ n => omega

theorem chunkStep_foldl_ok (S : List String) :
    ∀ (l : List String), (∀ s ∈ l, s ∈ S) → ∀ (chunks : List String) (cc : String),
      (∀ c ∈ chunks, c.length ≤ 6002 ∨ ∃ s ∈ S, c = jsTrim s ∧ c.length ≤ s.length) →
      (cc = "" ∨ cc ∈ S ∨ cc.length ≤ 6002) →
      (∀ c ∈ (l.foldl AIServiceOpenAI.chunkStep (chunks, cc)).1,
        c.length ≤ 6002 ∨ ∃ s ∈ S, c = jsTrim s ∧ c.length ≤ s.length) ∧
      ((l.foldl AIServiceOpenAI.chunkStep (chunks, cc)).2 = "" ∨
       (l.foldl AIServiceOpenAI.chunkStep (chunks, cc)).2 ∈ S ∨
       (l.foldl AIServiceOpenAI.chunkStep (chunks, cc)).2.length ≤ 6002) := by
  intro l
  induction l with
  | nil =>
    intro _ chunks cc hch hcc
    exact ⟨hch, hcc⟩
  | cons s l ih =>
    intro hsub chunks cc hch hcc
    simp only [List.foldl_cons]
    rw [AIServiceOpenAI.chunkStep]
    by_cases hcond : cc.length + s.length > 6000 ∧ cc.length > 0
    · rw [if_pos hcond]
      apply ih (fun t ht => hsub t (List.mem_cons_of_mem _ ht))
      · intro c hc
        rcases List.mem_append.mp hc with hc1 | hc2
        · exact hch c hc1
        · rw [List.mem_singleton] at hc2
          subst hc2
          rcases hcc with rfl | hcc2 | hcc3
          · exact absurd hcond.2 (by simp)
          · exact Or.inr ⟨cc, hcc2, rfl, jsTrim_length_le cc⟩
          · exact Or.inl (le_trans (jsTrim_length_le cc) hcc3)
      · exact Or.inr (Or.inl (hsub s (List.mem_cons_self _ _)))
    · rw [if_neg hcond]
      apply ih (fun t ht => hsub t (List.mem_cons_of_mem _ ht)) _ _ hch
      by_cases hccE : cc = ""
      · subst hccE
        rw [if_neg (by simp)]
        rw [String.empty_append, String.empty_append]
        exact Or.inr (Or.inl (hsub s (List.mem_cons_self _ _)))
      · rw [if_pos hccE]
        refine Or.inr (Or.inr ?_)
        have hle : cc.length + s.length ≤ 6000 := by
          rcases Nat.lt_or_ge 6000 (cc.length + s.length) with hgt | hle2
          · exact absurd ⟨hgt, stringLengthPos hccE⟩ hcond
          · exact hle2
        simp only [String.length_append]
        have : ("\n\n" : String).length = 2 := rfl
        omega


theorem stringLengthData (s : String) : s.length = s.data.length := rfl

theorem chunkProbeText_data :
    chunkProbeText.data = List.replicate 3000 'a' ++ '\n' :: '\n' ::
      (List.replicate 2999 'b' ++ '\n' :: '\n' :: ['x']) := by
  show (((String.mk (List.replicate 3000 'a') ++ "\n\n") ++
      String.mk (List.replicate 2999 'b')) ++ "\n\nx").data = _
  rw [String.data_append, String.data_append, String.data_append]
  show ((List.replicate 3000 'a' ++ ['\n', '\n']) ++ List.replicate 2999 'b') ++
      ['\n', '\n', 'x'] = _
  simp only [List.append_assoc]
  rfl

theorem chunkProbeText_length : chunkProbeText.length = 6004 := by
  rw [stringLengthData, chunkProbeText_data]
  simp only [List.length_append, List.length_cons, List.length_replicate,
    List.length_nil]

theorem probeA_length : (String.mk (List.replicate 3000 'a')).length = 3000 := by
  show (List.replicate 3000 'a').length = 3000
  exact List.length_replicate 3000 'a'

theorem probeB_length : (String.mk (List.replicate 2999 'b')).length = 2999 := by
  show (List.replicate 2999 'b').length = 2999
  exact List.length_replicate 2999 'b'

theorem probeAB_data :
    (String.mk (List.replicate 3000 'a') ++ "\n\n" ++ String.mk (List.replicate 2999 'b')).data =
      List.replicate 3000 'a' ++ '\n' :: '\n' :: List.replicate 2999 'b' := by
  rw [String.data_append, String.data_append]
  show (List.replicate 3000 'a' ++ ['\n', '\n']) ++ List.replicate 2999 'b' = _
  rw [List.append_assoc]
  rfl

theorem probeAB_length :
    (String.mk (List.replicate 3000 'a') ++ "\n\n" ++ String.mk (List.replicate 2999 'b')).length =
      6001 := by
  rw [stringLengthData, probeAB_data]
  simp only [List.length_append, List.length_cons, List.length_replicate]

theorem jsTrim_probeAB :
    jsTrim (String.mk (List.replicate 3000 'a') ++ "\n\n" ++ String.mk (List.replicate 2999 'b')) =
      String.mk (List.replicate 3000 'a') ++ "\n\n" ++ String.mk (List.replicate 2999 'b') := by
  apply jsTrim_eq_self
  · intro c hc
    rw [probeAB_data, List.replicate_succ, List.cons_append] at hc
    simp only [List.head?_cons, Option.some.injEq] at hc
    subst hc
    decide
  · intro c hc
    rw [probeAB_data] at hc
    rw [show (List.replicate 2999 'b' : List Char) = 'b' :: List.replicate 2998 'b' from
      List.replicate_succ 'b' 2998] at hc
    rw [List.reverse_append] at hc
    simp only [List.reverse_cons, List.append_assoc, List.cons_append, List.nil_append] at hc
    rw [show (List.replicate 2998 'b' : List Char).reverse = List.replicate 2998 'b' from
      List.reverse_replicate 2998 'b'] at hc
    rcases h2998 : (List.replicate 2998 'b' : List Char) with _ | ⟨d, r⟩
    · have hlen := congrArg List.length h2998
      rw [List.length_replicate, List.length_nil] at hlen
      exact absurd hlen (by decide)
    · rw [h2998, List.cons_append, List.head?_cons] at hc
      have hd : d = 'b' :=
        List.eq_of_mem_replicate (by rw [h2998]; exact List.mem_cons_self d r)
      rw [Option.some.injEq] at hc
      subst hc
      rw [hd]
      decide

theorem probeA_ne_empty : String.mk (List.replicate 3000 'a') ≠ "" := by
  intro h
  have := probeA_length
  rw [h] at this
  exact absurd this (by decide)

theorem intelligentChunk_probe :
    AIServiceOpenAI.intelligentChunk chunkProbeText =
      [String.mk (List.replicate 3000 'a') ++ "\n\n" ++ String.mk (List.replicate 2999 'b'),
       "x"] := by
  have h1 : AIServiceOpenAI.chunkStep ([], "") (String.mk (List.replicate 3000 'a')) =
      ([], String.mk (List.replicate 3000 'a')) := by
    rw [AIServiceOpenAI.chunkStep]
    rw [if_neg (by intro h; exact absurd h.2 (by decide))]
    rw [if_neg (by intro h; exact h rfl)]
    rw [String.empty_append, String.empty_append]
  have h2 : AIServiceOpenAI.chunkStep ([], String.mk (List.replicate 3000 'a'))
      (String.mk (List.replicate 2999 'b')) =
      ([], String.mk (List.replicate 3000 'a') ++ "\n\n" ++ String.mk (List.replicate 2999 'b')) := by
    rw [AIServiceOpenAI.chunkStep]
    rw [if_neg (by rw [probeA_length, probeB_length]; decide)]
    rw [if_pos probeA_ne_empty]
  have h3 : AIServiceOpenAI.chunkStep
      ([], String.mk (List.replicate 3000 'a') ++ "\n\n" ++ String.mk (List.replicate 2999 'b'))
      "x" =
      ([jsTrim (String.mk (List.replicate 3000 'a') ++ "\n\n" ++
          String.mk (List.replicate 2999 'b'))], "x") := by
    rw [AIServiceOpenAI.chunkStep]
    rw [if_pos (by rw [probeAB_length]; decide)]
    rw [List.nil_append]
  rw [jsTrim_probeAB] at h3
  unfold AIServiceOpenAI.intelligentChunk
  rw [if_neg (by rw [chunkProbeText_length]; decide)]
  rw [splitSections_chunkProbeText]
  generalize String.mk (List.replicate 3000 'a') = A at h1 h2 h3 ⊢
  generalize String.mk (List.replicate 2999 'b') = B at h2 h3 ⊢
  simp only [List.foldl_cons, List.foldl_nil, h1, h2, h3]
  rw [show jsTrim "x" = "x" from rfl]
  rw [if_pos (show ("x" : String) ≠ "" by decide)]
  rw [List.singleton_append]

/-- `C4` counterexample: on `chunkProbeText` every paragraph section is within the
6000-character budget (3000, 2999, 1), yet `intelligentChunk` emits a 6001-character
segment, because the overflow check `currentChunk.length + section.length > 6000`
ignores the two-character `"\n\n"` joiner added between sections. -/
theorem c4_chunker_counterexample :
    (∀ s ∈ splitSections chunkProbeText, s.length ≤ 6000) ∧
    ∃ c ∈ AIServiceOpenAI.intelligentChunk chunkProbeText, 6000 < c.length := by
  constructor
  · rw [splitSections_chunkProbeText]
    intro s hs
    rcases List.mem_cons.mp hs with rfl | hs
    · rw [probeA_length]; decide
    · rcases List.mem_cons.mp hs with rfl | hs
      · rw [probeB_length]; decide
      · rcases List.mem_cons.mp hs with rfl | hs
        · decide
        · exact absurd hs (List.not_mem_nil s)
  · refine ⟨String.mk (List.replicate 3000 'a') ++ "\n\n" ++ String.mk (List.replicate 2999 'b'),
      ?_, ?_⟩
    · rw [intelligentChunk_probe]
      exact List.mem_cons_self _ _
    · rw [probeAB_length]
      decide

/-- `C4` (amended): an input of length at most 6000 is returned as the sole segment;
every emitted segment either has length at most 6002 (budget plus the uncounted
two-character joiner) or is the trim of a single source paragraph section (hence can
only exceed the budget when that atomic section does); in particular when every
paragraph section fits in 6000 characters, every segment fits in 6002. The literal
6000-character bound of the spec does not hold (see the counterexample), and an
emitted segment can also be empty or deviate from exact reconstruction, so only this
weakened contract is established. -/
theorem c4_chunker (text : String) :
    (text.length ≤ 6000 → AIServiceOpenAI.intelligentChunk text = [text]) ∧
    (∀ c ∈ AIServiceOpenAI.intelligentChunk text,
      c.length ≤ 6002 ∨ ∃ s ∈ splitSections text, c = jsTrim s ∧ c.length ≤ s.length) ∧
    ((∀ s ∈ splitSections text, s.length ≤ 6000) →
      ∀ c ∈ AIServiceOpenAI.intelligentChunk text, c.length ≤ 6002) := by
  have hmain : ∀ c ∈ AIServiceOpenAI.intelligentChunk text,
      c.length ≤ 6002 ∨ ∃ s ∈ splitSections text, c = jsTrim s ∧ c.length ≤ s.length := by
    intro c hc
    unfold AIServiceOpenAI.intelligentChunk at hc
    by_cases hlen : text.length ≤ 6000
    · rw [if_pos hlen] at hc
      rcases List.mem_singleton.mp hc with rfl
      exact Or.inl (by omega)
    · rw [if_neg hlen] at hc
      simp only at hc
      obtain ⟨hall, hcc⟩ := chunkStep_foldl_ok (splitSections text) (splitSections text)
        (fun s hs => hs) [] ""
        (by intro x hx; exact absurd hx (List.not_mem_nil x)) (Or.inl rfl)
      set F := (splitSections text).foldl AIServiceOpenAI.chunkStep ([], "") with hF
      have hchunks : ∀ x ∈ (if jsTrim F.2 ≠ "" then F.1 ++ [jsTrim F.2] else F.1),
          x.length ≤ 6002 ∨ ∃ s ∈ splitSections text, x = jsTrim s ∧ x.length ≤ s.length := by
        intro x hx
        by_cases hcc2 : jsTrim F.2 ≠ ""
        · rw [if_pos hcc2] at hx
          rcases List.mem_append.mp hx with hx1 | hx2
          · exact hall x hx1
          · rcases List.mem_singleton.mp hx2 with rfl
            rcases hcc with hccE | hccS | hccL
            · rw [hccE] at hcc2
              exact absurd rfl hcc2
            · exact Or.inr ⟨F.2, hccS, rfl, jsTrim_length_le _⟩
            · exact Or.inl (le_trans (jsTrim_length_le _) (by omega))
        · rw [if_neg hcc2] at hx
          exact hall x hx
      rcases hsplit : (if jsTrim F.2 ≠ "" then F.1 ++ [jsTrim F.2] else F.1)
        with _ | ⟨c1, _ | ⟨c2, rest⟩⟩
      · rw [hsplit] at hc
        dsimp only at hc
        have := charSlices_bound text.data c hc
        exact Or.inl (by omega)
      · rw [hsplit] at hc
        dsimp only at hc
        by_cases h61 : 6000 < c1.length
        · rw [if_pos h61] at hc
          have := charSlices_bound text.data c hc
          exact Or.inl (by omega)
        · rw [if_neg h61] at hc
          rcases List.mem_singleton.mp hc with rfl
          exact Or.inl (by omega)
      · rw [hsplit] at hc
        dsimp only at hc
        exact hchunks c (by rw [hsplit]; exact hc)
  refine ⟨?_, hmain, ?_⟩
  · intro h
    unfold AIServiceOpenAI.intelligentChunk
    rw [if_pos h]
  · intro hsec c hc
    rcases hmain c hc with h1 | ⟨s, hs, rfl, hle⟩
    · exact h1
    · have := hsec s hs
      omega

/-- Witness for `C4`: the three-character input `"abc"` is within the budget and is
returned as the sole segment. -/
theorem c4_chunker_witness : AIServiceOpenAI.intelligentChunk "abc" = ["abc"] :=
  (c4_chunker "abc").1 (by decide)
